import Mathlib

/-!
Verification development for the bl602-re comparison scripts
(`script/headerdiff.py` and `script/funcdiff.py`).

The Python code is shallowly embedded:
* DWARF debug-info entries (DIEs) become a structure keyed by their
  unique offset inside a compilation unit; attribute access on a
  missing attribute is a `KeyError`, modelled by an explicit error value.
* The mutable Python object graph of reconstructed C types becomes an
  arena (`store`) of nodes addressed by `CRef`; Python object identity
  is arena-address equality.  The per-unit `ctype_cache` becomes an
  association list from DIE offset to arena address.
* `die_to_ctype`'s unbounded recursion becomes a fuel-indexed function;
  exhausted fuel is a distinguished error, so a successful result
  witnesses termination of the Python recursion.
* Exceptions thread the state they were raised in (Python mutations are
  not rolled back when an exception propagates), so every operation
  returns a state together with an `Except` outcome.
* `st.caught` is a ghost counter incremented each time `die_get_at_type`
  swallows a `KeyError` (its `except KeyError: return CVoid`); it never
  influences control flow and lets theorems speak about runs in which no
  attribute-lookup failure was silently recovered.
-/

/-- Ordered-dict assignment `d[k] = v`: update the value in place if the key
is present (keeping its position, Python `dict` semantics), else append. -/
def dictSet {K V : Type} [BEq K] : List (K × V) → K → V → List (K × V)
  | [], k, v => [(k, v)]
  | (k', v') :: rest, k, v =>
    if k' == k then (k, v) :: rest else (k', v') :: dictSet rest k v

/-- Dict lookup `d[k]`, `none` when absent. -/
def dictFind {K V : Type} [BEq K] (l : List (K × V)) (k : K) : Option V :=
  (l.find? (fun p => p.1 == k)).map (·.2)

/-! ## DWARF debug-info entries -/

/-- The DIE attributes the scripts read.  `none` models an absent attribute
(so an unguarded `die.attributes[...]` on it is a `KeyError`). -/
structure Attrs where
  name : Option String := none
  typeRef : Option Nat := none
  upperBound : Option Nat := none
  dataMemberLocation : Option Nat := none
  constValue : Option Int := none
  inlineAttr : Bool := false
deriving Repr, DecidableEq

/-- A debug-info entry.  Children are recorded by offset; within one
compilation unit the offset identifies the entry
(`cu.get_DIE_from_refaddr`). -/
structure DIE where
  offset : Nat
  tag : String
  attrs : Attrs := {}
  children : List Nat := []
deriving Repr, DecidableEq

/-- A compilation unit: the offset-indexed collection of its DIEs. -/
structure CU where
  dies : List DIE
deriving Repr, DecidableEq

/-- `cu.get_DIE_from_refaddr(off)`. -/
def CU.getDIE (cu : CU) (off : Nat) : Option DIE :=
  cu.dies.find? (fun d => d.offset == off)

/-- `die_get_name`: the decoded `DW_AT_name`, if present. -/
def die_get_name (die : DIE) : Option String := die.attrs.name

/-! ## The reconstructed C-type object graph -/

/-- A reference to a reconstructed C type.  `CVoid` and `CEllipsis` are
module-level singletons in the Python code, the rest are heap objects
(arena nodes).  Reference equality is Python object identity. -/
inductive CRef where
  | void
  | ellipsis
  | node (id : Nat)
deriving Repr, DecidableEq

/-- The payload of one reconstructed C-type object. -/
inductive CTypeNode where
  | pointer (of : CRef)
  | array (of : CRef) (length : Option Nat)
  | cstruct (name : Option String) (members : List (Option String × CRef))
      (memberOffsets : List (Option String × Nat))
  | cunion (name : Option String) (members : List (Option String × CRef))
  | cenum (name : Option String) (members : List (Option String × Int))
  | cconst (of : CRef)
  | cvolatile (of : CRef)
  | funcPtr (ret : CRef) (args : List (CRef × Option String))
  | primitive (name : String)
  | typedefNode (name : String) (of : CRef)
deriving Repr, DecidableEq

/-- The mutable reconstruction state: the per-unit `ctype_cache`
(offset → arena address), the arena of live C-type objects, and the ghost
counter of silently recovered `KeyError`s. -/
structure St where
  cache : List (Nat × Nat) := []
  store : List CTypeNode := []
  caught : Nat := 0
deriving Repr, DecidableEq

/-- `die.cu.ctype_cache[offset]`, `none` on `KeyError`. -/
def St.cacheLookup (s : St) (off : Nat) : Option Nat :=
  (s.cache.find? (fun p => p.1 == off)).map (·.2)

/-- Allocate a fresh C-type object and record it in the cache
(`cache_ctype(CSomething(...))`). -/
def St.alloc (s : St) (off : Nat) (n : CTypeNode) : St × CRef :=
  ({ s with cache := (off, s.store.length) :: s.cache, store := s.store ++ [n] },
   .node s.store.length)

/-- Mutate the arena object at `id` in place. -/
def St.updateNode (s : St) (id : Nat) (f : CTypeNode → CTypeNode) : St :=
  { s with store := s.store.set id (f ((s.store[id]?).getD (.primitive ""))) }

/-- `members[name] = ty` on a struct or union object. -/
def CTypeNode.setMember (n : CTypeNode) (key : Option String) (v : CRef) : CTypeNode :=
  match n with
  | .cstruct nm ms offs => .cstruct nm (dictSet ms key v) offs
  | .cunion nm ms => .cunion nm (dictSet ms key v)
  | other => other

/-- `member_offsets[name] = off` on a struct object. -/
def CTypeNode.setMemberOffset (n : CTypeNode) (key : Option String) (off : Nat) : CTypeNode :=
  match n with
  | .cstruct nm ms offs => .cstruct nm ms (dictSet offs key off)
  | other => other

/-- `members[name] = value` on an enum object. -/
def CTypeNode.setEnumMember (n : CTypeNode) (key : Option String) (v : Int) : CTypeNode :=
  match n with
  | .cenum nm ms => .cenum nm (dictSet ms key v)
  | other => other

/-- `isinstance(of, CArray)`. -/
def St.isArrayRef (s : St) (r : CRef) : Bool :=
  match r with
  | .node id =>
    match s.store[id]? with
    | some (.array _ _) => true
    | _ => false
  | _ => false

/-! ## Errors

`KeyError` (attribute lookup), `TypeError` / `ValueError` (explicit
raises), a fuel marker standing for non-termination of the Python
recursion, and a marker for a dangling DIE reference (which `pyelftools`
would fail on with an error that is not a `KeyError`). -/

inductive Err where
  | keyError (attr : String)
  | typeError (msg : String)
  | valueError (msg : String)
  | missingDie
  | fuel
deriving Repr, DecidableEq

/-- Outcome of one reconstruction step: the state at return (or at the
point the exception left the function) and the result. -/
abbrev Res := St × Except Err CRef

/-- `die_get_at_type`: resolve `DW_AT_type`; a `KeyError` — from the
attribute access or from anywhere inside the recursive reconstruction —
is caught and turned into `CVoid`.  `recur` is the recursive call at the
caller's remaining fuel. -/
def die_get_at_type (recur : Nat → St → Res) (die : DIE) (s : St) : Res :=
  match die.attrs.typeRef with
  | none => (s, .ok .void)
  | some r =>
    match recur r s with
    | (s1, .error (.keyError _)) => ({ s1 with caught := s1.caught + 1 }, .ok .void)
    | other => other

/-- The `DW_TAG_subrange_type` scan of the array branch: the last child
carrying `DW_AT_upper_bound` sets the length to bound + 1. -/
def array_length_of (cu : CU) (children : List Nat) : Option Nat :=
  children.foldl
    (fun acc coff =>
      match cu.getDIE coff with
      | some c =>
        if c.tag == "DW_TAG_subrange_type" && c.attrs.upperBound.isSome then
          c.attrs.upperBound.map (· + 1)
        else acc
      | none => acc)
    none

/-- The child loop of `die_to_funclike_args`.  `parent` is the function
DIE; its (and not the child's) attribute set is consulted for the
`'DW_AT_name' in die.attributes` presence test, exactly as the source
does. -/
def funclike_args_loop (recur : Nat → St → Res) (cu : CU) (parent : DIE) :
    List Nat → List (CRef × Option String) → St →
    St × Except Err (List (CRef × Option String))
  | [], acc, s => (s, .ok acc)
  | coff :: rest, acc, s =>
    match cu.getDIE coff with
    | none => (s, .error .missingDie)
    | some c =>
      if c.tag == "DW_TAG_formal_parameter" then
        match
          (if parent.attrs.name.isSome then
            match c.attrs.name with
            | some n => Except.ok (some n)
            | none => Except.error (Err.keyError "DW_AT_name")
          else Except.ok none : Except Err (Option String)) with
        | .error e => (s, .error e)
        | .ok argName =>
          match c.attrs.typeRef with
          | none => (s, .error (.keyError "DW_AT_type"))
          | some r =>
            match recur r s with
            | (s1, .error e) => (s1, .error e)
            | (s1, .ok ty) =>
              funclike_args_loop recur cu parent rest (acc ++ [(ty, argName)]) s1
      else if c.tag == "DW_TAG_unspecified_parameters" then
        funclike_args_loop recur cu parent rest (acc ++ [(.ellipsis, none)]) s
      else if c.tag == "DW_TAG_variable" || c.tag == "DW_TAG_inlined_subroutine"
          || c.tag == "DW_TAG_lexical_block" || c.tag == "DW_TAG_subprogram"
          || c.tag == "DW_TAG_label" || c.tag.startsWith "DW_TAG_GNU"
          || c.tag.endsWith "_type" then
        funclike_args_loop recur cu parent rest acc s
      else
        (s, .error (.typeError ("What is a " ++ c.tag ++ " function DIE child?")))

/-- `die_to_funclike_args`: return type plus the classified children. -/
def die_to_funclike_args (recur : Nat → St → Res) (cu : CU) (die : DIE) (s : St) :
    St × Except Err (CRef × List (CRef × Option String)) :=
  if die.tag == "DW_TAG_subroutine_type" || die.tag == "DW_TAG_subprogram" then
    match die_get_at_type recur die s with
    | (s1, .error e) => (s1, .error e)
    | (s1, .ok ret) =>
      match funclike_args_loop recur cu die die.children [] s1 with
      | (s2, .error e) => (s2, .error e)
      | (s2, .ok args) => (s2, .ok (ret, args))
  else
    (s, .error (.valueError ("Wrong DIE tag " ++ die.tag ++ " for a function/funcptr")))

/-- Member loop of the `DW_TAG_structure_type` branch: the aggregate at
`id` is already allocated and cached; each member's type is written into
the shared members dict, then its `DW_AT_data_member_location` is read
(a `KeyError` when absent, after the member entry was already written). -/
def struct_members_loop (recur : Nat → St → Res) (cu : CU) (id : Nat) :
    List Nat → St → Res
  | [], s => (s, .ok (.node id))
  | coff :: rest, s =>
    match cu.getDIE coff with
    | none => (s, .error .missingDie)
    | some c =>
      if c.tag == "DW_TAG_member" then
        match die_get_at_type recur c s with
        | (s1, .error e) => (s1, .error e)
        | (s1, .ok ty) =>
          let s2 := s1.updateNode id (·.setMember c.attrs.name ty)
          match c.attrs.dataMemberLocation with
          | none => (s2, .error (.keyError "DW_AT_data_member_location"))
          | some off =>
            struct_members_loop recur cu id rest
              (s2.updateNode id (·.setMemberOffset c.attrs.name off))
      else struct_members_loop recur cu id rest s

/-- Member loop of the `DW_TAG_union_type` branch. -/
def union_members_loop (recur : Nat → St → Res) (cu : CU) (id : Nat) :
    List Nat → St → Res
  | [], s => (s, .ok (.node id))
  | coff :: rest, s =>
    match cu.getDIE coff with
    | none => (s, .error .missingDie)
    | some c =>
      if c.tag == "DW_TAG_member" then
        match die_get_at_type recur c s with
        | (s1, .error e) => (s1, .error e)
        | (s1, .ok ty) =>
          union_members_loop recur cu id rest (s1.updateNode id (·.setMember c.attrs.name ty))
      else union_members_loop recur cu id rest s

/-- Enumerator loop of the `DW_TAG_enumeration_type` branch. -/
def enum_members_loop (cu : CU) (id : Nat) : List Nat → St → Res
  | [], s => (s, .ok (.node id))
  | coff :: rest, s =>
    match cu.getDIE coff with
    | none => (s, .error .missingDie)
    | some c =>
      if c.tag == "DW_TAG_enumerator" then
        match c.attrs.constValue with
        | none => (s, .error (.keyError "DW_AT_const_value"))
        | some v =>
          enum_members_loop cu id rest (s.updateNode id (·.setEnumMember c.attrs.name v))
      else enum_members_loop cu id rest s

/-- Allocate-and-cache, packaged as a reconstruction result. -/
def allocRes (s : St) (off : Nat) (n : CTypeNode) : Res :=
  ((s.alloc off n).1, .ok (s.alloc off n).2)

/-- `die_to_ctype`, fuel-indexed.  The entry at `off` is fetched from the
unit, the per-unit cache is consulted first, then the tag dispatch of the
source runs; every recursive resolution happens at one unit less fuel. -/
def die_to_ctype : Nat → CU → Nat → St → Res
  | 0, _, _, s => (s, .error .fuel)
  | fuel + 1, cu, off, s =>
    match cu.getDIE off with
    | none => (s, .error .missingDie)
    | some die =>
      match s.cacheLookup off with
      | some id => (s, .ok (.node id))
      | none =>
        let recur := die_to_ctype fuel cu
        if die.tag == "DW_TAG_pointer_type" then
          match die_get_at_type recur die s with
          | (s1, .error e) => (s1, .error e)
          | (s1, .ok of) =>
            match die.attrs.typeRef with
            | some r =>
              match cu.getDIE r with
              | none => (s1, .error .missingDie)
              | some ofDie =>
                if ofDie.tag == "DW_TAG_subroutine_type" then (s1, .ok of)
                else allocRes s1 off (.pointer of)
            | none => allocRes s1 off (.pointer of)
        else if die.tag == "DW_TAG_array_type" then
          let len := array_length_of cu die.children
          match die_get_at_type recur die s with
          | (s1, .error e) => (s1, .error e)
          | (s1, .ok of) => allocRes s1 off (.array of len)
        else if die.tag == "DW_TAG_structure_type" then
          struct_members_loop recur cu s.store.length die.children
            (s.alloc off (.cstruct die.attrs.name [] [])).1
        else if die.tag == "DW_TAG_union_type" then
          union_members_loop recur cu s.store.length die.children
            (s.alloc off (.cunion die.attrs.name [])).1
        else if die.tag == "DW_TAG_enumeration_type" then
          enum_members_loop cu s.store.length die.children
            (s.alloc off (.cenum die.attrs.name [])).1
        else if die.tag == "DW_TAG_const_type" || die.tag == "DW_TAG_volatile_type" then
          match die_get_at_type recur die s with
          | (s1, .error e) => (s1, .error e)
          | (s1, .ok of) =>
            if s1.isArrayRef of then (s1, .ok of)
            else if die.tag == "DW_TAG_const_type" then allocRes s1 off (.cconst of)
            else allocRes s1 off (.cvolatile of)
        else if die.tag == "DW_TAG_subroutine_type" then
          match die_to_funclike_args recur cu die s with
          | (s1, .error e) => (s1, .error e)
          | (s1, .ok (ret, args)) => allocRes s1 off (.funcPtr ret args)
        else if die.tag == "DW_TAG_base_type" then
          match die.attrs.name with
          | none => (s, .error (.keyError "DW_AT_name"))
          | some n => allocRes s off (.primitive (if n == "_Bool" then "bool" else n))
        else if die.tag == "DW_TAG_typedef" then
          match die.attrs.name with
          | none => (s, .error (.keyError "DW_AT_name"))
          | some n =>
            match die_get_at_type recur die s with
            | (s1, .error e) => (s1, .error e)
            | (s1, .ok of) => allocRes s1 off (.typedefNode n of)
        else
          (s, .error (.typeError ("What is a type " ++ die.tag ++ "?")))

/-! ## Symbol Linkage Table (`is_static`)

One symbol-table record is modelled by its decoded fields: the string
table index `st_name` and the byte `st_info` (low nibble = symbol type,
high nibble = binding), exactly what `ELF_SYM_STRUCT.unpack` extracts
from each fixed-size record. -/

structure SymRec where
  st_name : Nat
  st_info : Nat
deriving Repr, DecidableEq

/-- A symbol-table section: its record buffer in file order, and the
associated string table. -/
structure SymtabSection where
  recs : List SymRec
  strtab : Nat → String

def STB_LOCAL : Nat := 0
def STT_OBJECT : Nat := 1
def STT_FUNC : Nat := 2

/-- Does the record's type nibble make it a function or object record? -/
def symIsFuncObj (r : SymRec) : Bool :=
  (r.st_info &&& 0xF) == STT_FUNC || (r.st_info &&& 0xF) == STT_OBJECT

/-- The `_static_cache` built by the linear scan: name → (binding ==
STB_LOCAL) for each function/object record, later records overwriting
earlier ones of the same name. -/
def build_static_cache (t : SymtabSection) : List (String × Bool) :=
  t.recs.foldl
    (fun acc r =>
      if symIsFuncObj r then
        dictSet acc (t.strtab r.st_name) ((r.st_info >>> 4) == STB_LOCAL)
      else acc)
    []

/-- `is_static(symtab, name) -> (present, local)`. -/
def is_static (t : SymtabSection) (name : String) : Bool × Bool :=
  match dictFind (build_static_cache t) name with
  | some b => (true, b)
  | none => (false, false)

/-! ## Definition Context

`CFunction` objects are mutable and shared (the context hands out the
same object to every caller), so they live in their own arena `fstore`;
a `Context` maps a function name to the arena address of its record plus
the `defined` flag. -/

structure FuncData where
  name : String
  return_type : CRef
  args : List (CRef × Option String)
deriving Repr, DecidableEq

structure Context where
  name : String
  funcs : List (String × (Nat × Bool)) := []
deriving Repr, DecidableEq

/-- The name of the `CFunction` object at address `fid`. -/
def fname (fstore : List FuncData) (fid : Nat) : String :=
  ((fstore[fid]?).map (·.name)).getD ""

/-- `Context.func`: the shared record registered under `func_name`,
if any. -/
def Context.func (c : Context) (func_name : String) : Option Nat :=
  (dictFind c.funcs func_name).map (·.1)

/-- `Context.decl_func`: store `(func, False)` under the function's
name. -/
def Context.decl_func (c : Context) (fstore : List FuncData) (fid : Nat) : Context :=
  { c with funcs := dictSet c.funcs (fname fstore fid) (fid, false) }

/-- `Context.def_func`: no record → create a defined one; record already
defined → silently accept when inline, else the fatal ODR `ValueError`;
record declaration-only → overwrite the shared object's return type and
argument list in place (the `funcs` entry itself is left as it was). -/
def Context.def_func (c : Context) (fstore : List FuncData) (fid : Nat) (inl : Bool) :
    Except String (List FuncData × Context) :=
  let n := fname fstore fid
  match dictFind c.funcs n with
  | none => .ok (fstore, { c with funcs := dictSet c.funcs n (fid, true) })
  | some (gid, defined) =>
    if defined then
      if inl then .ok (fstore, c)
      else .error ("ODR violation: function " ++ n ++ " is defined twice in context " ++ c.name)
    else
      .ok (fstore.set gid
        { (fstore[gid]?.getD { name := "", return_type := .void, args := [] }) with
          return_type := (fstore[fid]?.getD { name := "", return_type := .void, args := [] }).return_type,
          args := (fstore[fid]?.getD { name := "", return_type := .void, args := [] }).args },
        c)

/-- A sequence of `def_func` calls (function address, inline flag),
stopping at the first raised error. -/
def apply_def_funcs (fstore : List FuncData) (c : Context) :
    List (Nat × Bool) → Except String (List FuncData × Context)
  | [] => .ok (fstore, c)
  | (fid, inl) :: rest =>
    match c.def_func fstore fid inl with
    | .error e => .error e
    | .ok (fs', c') => apply_def_funcs fs' c' rest

/-! ## Assembly Equivalence Pipeline (`funcdiff.diff_objects`)

The disassembler, the `Function` line model, its `equivalent` predicate
and `make_diff_table`'s similarity ratio are external collaborators; they
enter as parameters.  What is embedded is the classification and
aggregation loop over the vendor functions, with `float` similarities
modelled exactly as rationals. -/

/-- The per-vendor-function similarity: 0 when the candidate lacks the
function, 1 when the external equivalence holds, else the external diff
ratio. -/
def func_similarity {α : Type} (re_funcs : String → Option α)
    (equivalent : α → α → Bool) (diff_ratio : α → α → ℚ)
    (name : String) (f : α) : ℚ :=
  match re_funcs name with
  | none => 0
  | some g => if equivalent f g then 1 else diff_ratio f g

/-- The aggregation of `diff_objects`: the ordered vendor function dict,
the candidate lookup, and the two external judgements produce the
object-level `(similarity, all_equivalent)` pair. -/
def diff_objects {α : Type} (vendor_funcs : List (String × α))
    (re_funcs : String → Option α) (equivalent : α → α → Bool)
    (diff_ratio : α → α → ℚ) : ℚ × Bool :=
  let similarities :=
    vendor_funcs.map (fun p => func_similarity re_funcs equivalent diff_ratio p.1 p.2)
  ((if similarities.isEmpty then 1 else similarities.sum / (similarities.length : ℚ)),
   similarities.all (fun s => decide (s = 1)))

/-! ## Dictionary lemmas -/

theorem dictFind_dictSet {K V : Type} [BEq K] [LawfulBEq K]
    (l : List (K × V)) (k k' : K) (v : V) :
    dictFind (dictSet l k v) k' = if k' == k then some v else dictFind l k' := by
  induction l with
  | nil =>
    by_cases h : k' = k
    · subst h; simp [dictSet, dictFind, List.find?]
    · have h1 : (k' == k) = false := beq_eq_false_iff_ne.mpr h
      have h2 : (k == k') = false := beq_eq_false_iff_ne.mpr (Ne.symm h)
      simp [dictSet, dictFind, List.find?, h1, h2]
  | cons p rest ih =>
    obtain ⟨k0, v0⟩ := p
    by_cases h0 : k0 = k
    · subst h0
      by_cases h : k' = k0
      · subst h
        simp [dictSet, dictFind, List.find?]
      · have h1 : (k' == k0) = false := beq_eq_false_iff_ne.mpr h
        have h2 : (k0 == k') = false := beq_eq_false_iff_ne.mpr (Ne.symm h)
        simp [dictSet, dictFind, List.find?, h1, h2]
    · have hb0 : (k0 == k) = false := beq_eq_false_iff_ne.mpr h0
      by_cases h : k' = k0
      · subst h
        have h2 : (k' == k) = false := beq_eq_false_iff_ne.mpr (fun hk => h0 (hk.symm ▸ rfl))
        simp [dictSet, dictFind, List.find?, hb0, h2]
      · have h2 : (k0 == k') = false := beq_eq_false_iff_ne.mpr (Ne.symm h)
        simp only [dictSet, hb0, Bool.false_eq_true, if_false, dictFind, List.find?, h2]
        simpa [dictFind, List.find?] using ih

/-! ## Definition Context claims -/

/-- Helper for C1: after a name is registered as defined, a run of inline
(re)definitions of that name is accepted silently and changes nothing. -/
theorem apply_def_funcs_inline_defined
    (fstore : List FuncData) (c : Context) (n : String) (gid : Nat)
    (h : dictFind c.funcs n = some (gid, true)) :
    ∀ fs : List Nat, (∀ f ∈ fs, fname fstore f = n) →
      apply_def_funcs fstore c (fs.map (fun f => (f, true))) = .ok (fstore, c) := by
  intro fs
  induction fs with
  | nil => intro _; rfl
  | cons f rest ih =>
    intro hall
    have hf : fname fstore f = n := hall f (List.mem_cons_self f rest)
    simp only [List.map_cons, apply_def_funcs, Context.def_func, hf, h]
    exact ih fun g hg => hall g (List.mem_cons_of_mem f hg)

/-- C1: over an already-defined record, a non-inline `def_func` raises the
fatal ODR `ValueError` naming the function and the context, while an
inline `def_func` returns silently with everything unchanged; starting
from a name with no record, one non-inline definition followed by any
number of inline duplicates succeeds, and a further non-inline definition
of the same name raises. -/
theorem def_func_odr_discipline
    (fstore : List FuncData) (c₁ c₂ : Context) (fid gid fid0 fid2 : Nat)
    (fs : List Nat) (n : String)
    (h₁ : dictFind c₁.funcs (fname fstore fid) = some (gid, true))
    (h₂ : dictFind c₂.funcs n = none)
    (hfid0 : fname fstore fid0 = n)
    (hfs : ∀ f ∈ fs, fname fstore f = n)
    (hfid2 : fname fstore fid2 = n) :
    c₁.def_func fstore fid false =
      .error ("ODR violation: function " ++ fname fstore fid
        ++ " is defined twice in context " ++ c₁.name)
    ∧ c₁.def_func fstore fid true = .ok (fstore, c₁)
    ∧ apply_def_funcs fstore c₂ ((fid0, false) :: fs.map (fun f => (f, true)))
        = .ok (fstore, { c₂ with funcs := dictSet c₂.funcs n (fid0, true) })
    ∧ apply_def_funcs fstore c₂ ((fid0, false) :: fs.map (fun f => (f, true)) ++ [(fid2, false)])
        = .error ("ODR violation: function " ++ n
          ++ " is defined twice in context " ++ c₂.name) := by
  have hstep : c₂.def_func fstore fid0 false
      = .ok (fstore, { c₂ with funcs := dictSet c₂.funcs n (fid0, true) }) := by
    simp [Context.def_func, hfid0, h₂]
  have hreg : dictFind (dictSet c₂.funcs n (fid0, true)) n = some (fid0, true) := by
    simp [dictFind_dictSet]
  refine ⟨?_, ?_, ?_, ?_⟩
  · simp [Context.def_func, h₁]
  · simp [Context.def_func, h₁]
  · simp only [apply_def_funcs, hstep]
    exact apply_def_funcs_inline_defined fstore _ n fid0 hreg fs hfs
  · have hmid := apply_def_funcs_inline_defined fstore
      { c₂ with funcs := dictSet c₂.funcs n (fid0, true) } n fid0 hreg fs hfs
    have hsplit : ∀ (fsa : List FuncData) (ca : Context) (l₁ l₂ : List (Nat × Bool))
        (fsb : List FuncData) (cb : Context),
        apply_def_funcs fsa ca l₁ = .ok (fsb, cb) →
        apply_def_funcs fsa ca (l₁ ++ l₂) = apply_def_funcs fsb cb l₂ := by
      intro fsa ca l₁
      induction l₁ generalizing fsa ca with
      | nil => intro l₂ fsb cb hok; cases hok; rfl
      | cons hd tl ih =>
        intro l₂ fsb cb hok
        obtain ⟨f, inl⟩ := hd
        simp only [apply_def_funcs] at hok ⊢
        cases hdf : ca.def_func fsa f inl with
        | error e => rw [hdf] at hok; cases hok
        | ok out =>
          obtain ⟨fs', c'⟩ := out
          rw [hdf] at hok
          simp only [List.cons_append]
          exact ih fs' c' l₂ fsb cb hok
    have hpre : apply_def_funcs fstore c₂ ((fid0, false) :: fs.map (fun f => (f, true)))
        = .ok (fstore, { c₂ with funcs := dictSet c₂.funcs n (fid0, true) }) := by
      simp only [apply_def_funcs, hstep]; exact hmid
    have := hsplit fstore c₂ ((fid0, false) :: fs.map (fun f => (f, true))) [(fid2, false)]
      fstore { c₂ with funcs := dictSet c₂.funcs n (fid0, true) } hpre
    rw [List.cons_append] at this ⊢
    rw [this]
    simp [apply_def_funcs, Context.def_func, hfid2, hreg]

/-- Closed instance of C1 at a concrete context. -/
theorem def_func_odr_discipline_witness :
    (Context.def_func { name := "ctx", funcs := [("f", (0, true))] }
        [{ name := "f", return_type := .void, args := [] },
         { name := "f", return_type := .void, args := [(.void, some "x")] }] 1 false
      = .error "ODR violation: function f is defined twice in context ctx")
    ∧ (Context.def_func { name := "ctx", funcs := [("f", (0, true))] }
        [{ name := "f", return_type := .void, args := [] },
         { name := "f", return_type := .void, args := [(.void, some "x")] }] 1 true
      = .ok ([{ name := "f", return_type := .void, args := [] },
              { name := "f", return_type := .void, args := [(.void, some "x")] }],
             { name := "ctx", funcs := [("f", (0, true))] }))
    ∧ (apply_def_funcs
        [{ name := "f", return_type := .void, args := [] },
         { name := "f", return_type := .void, args := [(.void, some "x")] }]
        { name := "ctx2", funcs := [] } ((0, false) :: [1, 1].map (fun f => (f, true)))
      = .ok ([{ name := "f", return_type := .void, args := [] },
              { name := "f", return_type := .void, args := [(.void, some "x")] }],
             { name := "ctx2", funcs := [("f", (0, true))] }))
    ∧ (apply_def_funcs
        [{ name := "f", return_type := .void, args := [] },
         { name := "f", return_type := .void, args := [(.void, some "x")] }]
        { name := "ctx2", funcs := [] } ((0, false) :: [1, 1].map (fun f => (f, true)) ++ [(1, false)])
      = .error "ODR violation: function f is defined twice in context ctx2") := by
  have h := def_func_odr_discipline
    [{ name := "f", return_type := .void, args := [] },
     { name := "f", return_type := .void, args := [(.void, some "x")] }]
    { name := "ctx", funcs := [("f", (0, true))] }
    { name := "ctx2", funcs := [] } 1 0 0 1 [1, 1] "f"
    (by decide) (by decide) (by decide) (by decide) (by decide)
  exact ⟨h.1, h.2.1, h.2.2.1, h.2.2.2⟩

/-- C2 (the promotion slip): `def_func` over a declaration-only record
overwrites the shared object's return type and argument list in place —
so every holder of the shared record observes the new signature — but the
context entry keeps `defined = False` (the code never rewrites the tuple),
so the record is *not* marked defined and an immediately following
non-inline definition of the same name is accepted again instead of
raising the ODR violation. -/
theorem def_func_promotes_but_never_marks_defined
    (fstore : List FuncData) (c : Context) (fid gid : Nat) (g fd : FuncData)
    (hg : fstore[gid]? = some g) (hf : fstore[fid]? = some fd)
    (hne : fid ≠ gid)
    (hlook : dictFind c.funcs fd.name = some (gid, false)) :
    c.def_func fstore fid false
      = .ok (fstore.set gid { g with return_type := fd.return_type, args := fd.args }, c)
    ∧ (fstore.set gid { g with return_type := fd.return_type, args := fd.args })[gid]?
      = some { g with return_type := fd.return_type, args := fd.args }
    ∧ dictFind c.funcs fd.name = some (gid, false)
    ∧ (∀ e, Context.def_func c
        (fstore.set gid { g with return_type := fd.return_type, args := fd.args }) fid false
        ≠ .error e) := by
  have hgl : gid < fstore.length := by
    by_contra hlt
    push_neg at hlt
    rw [List.getElem?_eq_none hlt] at hg
    cases hg
  have hname : fname fstore fid = fd.name := by
    simp [fname, hf]
  have hset_f : (fstore.set gid { g with return_type := fd.return_type, args := fd.args })[fid]?
      = some fd := by
    rw [List.getElem?_set_ne (fun h => hne h.symm)]
    exact hf
  have hname' : fname (fstore.set gid { g with return_type := fd.return_type, args := fd.args }) fid
      = fd.name := by
    simp [fname, hset_f]
  refine ⟨?_, ?_, hlook, ?_⟩
  · simp [Context.def_func, hname, hlook, hg, hf]
  · exact List.getElem?_set_eq_of_lt _ hgl
  · intro e
    simp [Context.def_func, hname', hlook]

/-- Closed instance of C2's failing input: declare `f`, define `void f(int x)`
non-inline — the shared record is promoted (it now carries parameter name
`x`) yet the entry's defined flag is still `false`, and a second non-inline
definition sails through. -/
theorem def_func_promotes_but_never_marks_defined_witness :
    (Context.def_func { name := "ctx", funcs := [("f", (0, false))] }
        [{ name := "f", return_type := .void, args := [(.node 0, none)] },
         { name := "f", return_type := .void, args := [(.node 0, some "x")] }] 1 false
      = .ok ([{ name := "f", return_type := .void, args := [(.node 0, some "x")] },
              { name := "f", return_type := .void, args := [(.node 0, some "x")] }],
             { name := "ctx", funcs := [("f", (0, false))] }))
    ∧ (∀ e, Context.def_func { name := "ctx", funcs := [("f", (0, false))] }
        [{ name := "f", return_type := .void, args := [(.node 0, some "x")] },
         { name := "f", return_type := .void, args := [(.node 0, some "x")] }] 1 false
        ≠ .error e) := by
  have h := def_func_promotes_but_never_marks_defined
    [{ name := "f", return_type := .void, args := [(.node 0, none)] },
     { name := "f", return_type := .void, args := [(.node 0, some "x")] }]
    { name := "ctx", funcs := [("f", (0, false))] } 1 0
    { name := "f", return_type := .void, args := [(.node 0, none)] }
    { name := "f", return_type := .void, args := [(.node 0, some "x")] }
    (by decide) (by decide) (by decide) (by decide)
  exact ⟨h.1, h.2.2.2⟩

/-- C10 counterexample: `decl_func` *does* overwrite an existing record —
on a context already holding `("f", (record 0, defined))`, declaring a new
`f` replaces the entry with `(record 1, not defined)`. -/
theorem decl_func_overwrites_counterexample :
    Context.decl_func { name := "ctx", funcs := [("f", (0, true))] }
        [{ name := "f", return_type := .void, args := [] },
         { name := "f", return_type := .node 0, args := [] }] 1
      = { name := "ctx", funcs := [("f", (1, false))] }
    ∧ dictFind (Context.decl_func { name := "ctx", funcs := [("f", (0, true))] }
        [{ name := "f", return_type := .void, args := [] },
         { name := "f", return_type := .node 0, args := [] }] 1).funcs "f"
      ≠ some (0, true) := by
  constructor
  · rfl
  · decide

/-- C10 amended: `decl_func` unconditionally stores `(func, False)` under
the function's name — overwriting whatever record was there — and leaves
records under every other name untouched.  (Its only call site runs after
a failed lookup, so inside the program no existing record is ever hit.) -/
theorem decl_func_stores_undefined_record
    (fstore : List FuncData) (c : Context) (fid : Nat) (m : String)
    (hm : m ≠ fname fstore fid) :
    (c.decl_func fstore fid).funcs = dictSet c.funcs (fname fstore fid) (fid, false)
    ∧ dictFind (c.decl_func fstore fid).funcs (fname fstore fid) = some (fid, false)
    ∧ dictFind (c.decl_func fstore fid).funcs m = dictFind c.funcs m := by
  refine ⟨rfl, ?_, ?_⟩
  · simp [Context.decl_func, dictFind_dictSet]
  · have hb : (m == fname fstore fid) = false := beq_eq_false_iff_ne.mpr hm
    simp [Context.decl_func, dictFind_dictSet, hb, hm]

/-- Closed instance of the amended C10. -/
theorem decl_func_stores_undefined_record_witness :
    (Context.decl_func { name := "ctx", funcs := [("g", (0, true))] }
        [{ name := "g", return_type := .void, args := [] },
         { name := "f", return_type := .void, args := [] }] 1).funcs
      = dictSet [("g", (0, true))] "f" (1, false)
    ∧ dictFind (Context.decl_func { name := "ctx", funcs := [("g", (0, true))] }
        [{ name := "g", return_type := .void, args := [] },
         { name := "f", return_type := .void, args := [] }] 1).funcs "f" = some (1, false)
    ∧ dictFind (Context.decl_func { name := "ctx", funcs := [("g", (0, true))] }
        [{ name := "g", return_type := .void, args := [] },
         { name := "f", return_type := .void, args := [] }] 1).funcs "g"
      = dictFind [("g", (0, true))] "g" := by
  exact decl_func_stores_undefined_record
    [{ name := "g", return_type := .void, args := [] },
     { name := "f", return_type := .void, args := [] }]
    { name := "ctx", funcs := [("g", (0, true))] } 1 "g" (by decide)

/-! ## Assembly Equivalence Pipeline claims -/

/-- The per-function similarity list of one `diff_objects` run. -/
def vendor_similarities {α : Type} (vendor_funcs : List (String × α))
    (re_funcs : String → Option α) (equivalent : α → α → Bool)
    (diff_ratio : α → α → ℚ) : List ℚ :=
  vendor_funcs.map (fun p => func_similarity re_funcs equivalent diff_ratio p.1 p.2)

theorem list_sum_le_length (l : List ℚ) (h1 : ∀ x ∈ l, x ≤ 1) :
    l.sum ≤ l.length := by
  induction l with
  | nil => simp
  | cons a rest ih =>
    simp only [List.sum_cons, List.length_cons]
    have hr := ih (fun y hy => h1 y (List.mem_cons_of_mem a hy))
    have ha := h1 a (List.mem_cons_self a rest)
    push_cast
    linarith

theorem list_sum_lt_length (l : List ℚ) (h1 : ∀ x ∈ l, x ≤ 1)
    (h2 : ∃ x ∈ l, x < 1) : l.sum < l.length := by
  induction l with
  | nil => obtain ⟨x, hx, _⟩ := h2; cases hx
  | cons a rest ih =>
    simp only [List.sum_cons, List.length_cons]
    obtain ⟨x, hx, hxlt⟩ := h2
    have hrest := list_sum_le_length rest (fun y hy => h1 y (List.mem_cons_of_mem a hy))
    rcases List.mem_cons.mp hx with hxa | hxr
    · subst hxa
      push_cast
      linarith
    · have ha := h1 a (List.mem_cons_self a rest)
      have hlt := ih (fun y hy => h1 y (List.mem_cons_of_mem a hy)) ⟨x, hxr, hxlt⟩
      push_cast at hlt ⊢
      linarith

/-- C5: `diff_objects` returns the arithmetic mean of the per-vendor-function
similarities (missing → 0, equivalent → 1, different → external ratio),
1 (with `all_equivalent` true) when there are no vendor functions;
`all_equivalent` holds iff every per-function similarity is exactly 1; and
one missing function among otherwise-equivalent ones forces
`all_equivalent = false` and a mean strictly below 1. -/
theorem diff_objects_mean_and_all_equivalent {α : Type}
    (vendor_funcs : List (String × α)) (re_funcs : String → Option α)
    (equivalent : α → α → Bool) (diff_ratio : α → α → ℚ) :
    ((diff_objects vendor_funcs re_funcs equivalent diff_ratio).1 =
      if vendor_funcs.isEmpty then 1
      else (vendor_similarities vendor_funcs re_funcs equivalent diff_ratio).sum /
        ((vendor_similarities vendor_funcs re_funcs equivalent diff_ratio).length : ℚ))
    ∧ (vendor_funcs = [] →
      (diff_objects vendor_funcs re_funcs equivalent diff_ratio).1 = 1
      ∧ (diff_objects vendor_funcs re_funcs equivalent diff_ratio).2 = true)
    ∧ ((diff_objects vendor_funcs re_funcs equivalent diff_ratio).2 = true ↔
      ∀ x ∈ vendor_similarities vendor_funcs re_funcs equivalent diff_ratio, x = 1)
    ∧ (∀ (nm : String) (f : α), (nm, f) ∈ vendor_funcs → re_funcs nm = none →
      (∀ q ∈ vendor_funcs, q.1 ≠ nm →
        ∃ g, re_funcs q.1 = some g ∧ equivalent q.2 g = true) →
      (diff_objects vendor_funcs re_funcs equivalent diff_ratio).2 = false
      ∧ (diff_objects vendor_funcs re_funcs equivalent diff_ratio).1 < 1) := by
  refine ⟨?_, ?_, ?_, ?_⟩
  · cases vendor_funcs with
    | nil => rfl
    | cons p rest => rfl
  · intro hnil
    subst hnil
    exact ⟨rfl, rfl⟩
  · simp [diff_objects, vendor_similarities, List.all_eq_true]
  · intro nm f hmem hmiss hoth
    have hsim0 : func_similarity re_funcs equivalent diff_ratio nm f = 0 := by
      simp [func_similarity, hmiss]
    have hsims : ∀ x ∈ vendor_similarities vendor_funcs re_funcs equivalent diff_ratio,
        x = 0 ∨ x = 1 := by
      intro x hx
      simp only [vendor_similarities, List.mem_map] at hx
      obtain ⟨q, hq, hqx⟩ := hx
      by_cases hqn : q.1 = nm
      · by_cases hre : (re_funcs q.1).isSome
        · obtain ⟨g, hg⟩ := Option.isSome_iff_exists.mp hre
          rw [hqn, hmiss] at hg
          cases hg
        · left
          rw [← hqx]
          simp only [func_similarity]
          rw [Option.not_isSome_iff_eq_none.mp hre]
      · obtain ⟨g, hg, heq⟩ := hoth q hq hqn
        right
        rw [← hqx]
        simp [func_similarity, hg, heq]
    have hzero : (0 : ℚ) ∈ vendor_similarities vendor_funcs re_funcs equivalent diff_ratio := by
      simp only [vendor_similarities, List.mem_map]
      exact ⟨(nm, f), hmem, hsim0⟩
    have hne : vendor_funcs ≠ [] := by
      intro h
      rw [h] at hmem
      cases hmem
    constructor
    · refine List.all_eq_false.mpr ⟨0, ?_, by norm_num⟩
      simpa [vendor_similarities] using hzero
    · have hmapne : vendor_similarities vendor_funcs re_funcs equivalent diff_ratio ≠ [] := by
        simp [vendor_similarities, hne]
      have hlen : 0 < ((vendor_similarities vendor_funcs re_funcs equivalent
          diff_ratio).length : ℚ) := by
        exact_mod_cast List.length_pos.mpr hmapne
      have hlt := list_sum_lt_length
        (vendor_similarities vendor_funcs re_funcs equivalent diff_ratio)
        (fun x hx => by rcases hsims x hx with h | h <;> simp [h])
        ⟨0, hzero, by norm_num⟩
      show (if (vendor_similarities vendor_funcs re_funcs equivalent diff_ratio).isEmpty
        then (1 : ℚ)
        else (vendor_similarities vendor_funcs re_funcs equivalent diff_ratio).sum /
          ((vendor_similarities vendor_funcs re_funcs equivalent diff_ratio).length : ℚ)) < 1
      rw [if_neg (by simp [List.isEmpty_iff, hmapne])]
      rw [div_lt_one hlen]
      exact hlt

/-- Closed instance of C5: an empty vendor object scores 1 with
`all_equivalent` true; on spec Scenario A (vendor `foo`, `bar`; candidate
only an equivalent `foo`) the `all_equivalent` iff holds, the flag is
false and the aggregate mean is strictly below 1. -/
theorem diff_objects_mean_and_all_equivalent_witness :
    ((diff_objects ([] : List (String × Nat)) (fun _ => none)
        (fun a b => a == b) (fun _ _ => 0)).1 = 1
      ∧ (diff_objects ([] : List (String × Nat)) (fun _ => none)
        (fun a b => a == b) (fun _ _ => 0)).2 = true)
    ∧ ((diff_objects [("foo", (1 : Nat)), ("bar", 2)]
        (fun n => if n = "foo" then some 1 else none)
        (fun a b => a == b) (fun _ _ => 0)).2 = true ↔
      ∀ x ∈ vendor_similarities [("foo", (1 : Nat)), ("bar", 2)]
        (fun n => if n = "foo" then some 1 else none)
        (fun a b => a == b) (fun _ _ => 0), x = 1)
    ∧ ((diff_objects [("foo", (1 : Nat)), ("bar", 2)]
        (fun n => if n = "foo" then some 1 else none)
        (fun a b => a == b) (fun _ _ => 0)).2 = false
      ∧ (diff_objects [("foo", (1 : Nat)), ("bar", 2)]
        (fun n => if n = "foo" then some 1 else none)
        (fun a b => a == b) (fun _ _ => 0)).1 < 1) :=
  ⟨(diff_objects_mean_and_all_equivalent ([] : List (String × Nat)) (fun _ => none)
      (fun a b => a == b) (fun _ _ => 0)).2.1 rfl,
   (diff_objects_mean_and_all_equivalent [("foo", (1 : Nat)), ("bar", 2)]
      (fun n => if n = "foo" then some 1 else none)
      (fun a b => a == b) (fun _ _ => 0)).2.2.1,
   (diff_objects_mean_and_all_equivalent [("foo", (1 : Nat)), ("bar", 2)]
      (fun n => if n = "foo" then some 1 else none)
      (fun a b => a == b) (fun _ _ => 0)).2.2.2 "bar" 2
      (by decide) (by decide)
      (by
        intro q hq hqn
        rcases List.mem_cons.mp hq with h | h
        · exact ⟨1, by simp [h], by simp [h]⟩
        · rcases List.mem_cons.mp h with h' | h'
          · exact absurd (by rw [h']) hqn
          · cases h')⟩

/-! ## Symbol Linkage Table claims -/

theorem build_static_cache_mem (strtab : Nat → String) (name : String) :
    ∀ (recs : List SymRec) (acc : List (String × Bool)),
      (dictFind (recs.foldl (fun acc r =>
        if symIsFuncObj r then dictSet acc (strtab r.st_name) ((r.st_info >>> 4) == STB_LOCAL)
        else acc) acc) name).isSome = true ↔
      ((dictFind acc name).isSome = true
        ∨ ∃ r ∈ recs, symIsFuncObj r = true ∧ strtab r.st_name = name) := by
  intro recs
  induction recs with
  | nil =>
    intro acc
    simp
  | cons r rest ih =>
    intro acc
    simp only [List.foldl_cons]
    by_cases h : symIsFuncObj r = true
    · rw [if_pos h]
      have hfind : (dictFind (dictSet acc (strtab r.st_name)
          ((r.st_info >>> 4) == STB_LOCAL)) name).isSome = true ↔
          (name = strtab r.st_name ∨ (dictFind acc name).isSome = true) := by
        rw [dictFind_dictSet]
        by_cases hn : name = strtab r.st_name
        · simp [hn]
        · have hb : (name == strtab r.st_name) = false := beq_eq_false_iff_ne.mpr hn
          simp [hb, hn]
      rw [ih]
      simp only [List.mem_cons]
      constructor
      · rintro (h1 | ⟨r', hr', hfo, hnm⟩)
        · rcases hfind.mp h1 with hn | hacc
          · exact Or.inr ⟨r, Or.inl rfl, h, hn.symm⟩
          · exact Or.inl hacc
        · exact Or.inr ⟨r', Or.inr hr', hfo, hnm⟩
      · rintro (hacc | ⟨r', hr'mem, hfo, hnm⟩)
        · exact Or.inl (hfind.mpr (Or.inr hacc))
        · rcases hr'mem with heq | hmem
          · exact Or.inl (hfind.mpr (Or.inl (by rw [← hnm, heq])))
          · exact Or.inr ⟨r', hmem, hfo, hnm⟩
    · rw [if_neg h]
      rw [ih]
      simp only [List.mem_cons]
      constructor
      · rintro (hacc | ⟨r', hr', hfo, hnm⟩)
        · exact Or.inl hacc
        · exact Or.inr ⟨r', Or.inr hr', hfo, hnm⟩
      · rintro (hacc | ⟨r', hr'mem, hfo, hnm⟩)
        · exact Or.inl hacc
        · rcases hr'mem with heq | hmem
          · exact absurd (heq ▸ hfo) h
          · exact Or.inr ⟨r', hmem, hfo, hnm⟩

theorem is_static_fst_iff (t : SymtabSection) (name : String) :
    (is_static t name).1 = true ↔
      ∃ r ∈ t.recs, symIsFuncObj r = true ∧ t.strtab r.st_name = name := by
  have hbase := build_static_cache_mem t.strtab name t.recs []
  have hnil : (dictFind ([] : List (String × Bool)) name).isSome = false := rfl
  rw [hnil] at hbase
  simp only [Bool.false_eq_true, false_or] at hbase
  rw [← hbase]
  unfold is_static build_static_cache
  cases hfind : dictFind (t.recs.foldl (fun acc r =>
      if symIsFuncObj r then dictSet acc (t.strtab r.st_name) ((r.st_info >>> 4) == STB_LOCAL)
      else acc) []) name with
  | none => simp [hfind]
  | some b => simp [hfind]

/-- C9: a symbol table yields a classification table whose present names
are exactly the names of its function/object records — records of other
types are skipped — and presence is invariant under any reordering of the
record buffer. -/
theorem is_static_classifies_func_obj_names (t : SymtabSection) (name : String)
    (t' : SymtabSection) (hstr : t'.strtab = t.strtab) (hperm : t.recs.Perm t'.recs) :
    ((is_static t name).1 = true ↔
      name ∈ (t.recs.filter symIsFuncObj).map (fun r => t.strtab r.st_name))
    ∧ (is_static t' name).1 = (is_static t name).1 := by
  constructor
  · rw [is_static_fst_iff]
    simp only [List.mem_map, List.mem_filter]
    constructor
    · rintro ⟨r, hr, hfo, hnm⟩
      exact ⟨r, ⟨hr, hfo⟩, hnm⟩
    · rintro ⟨r, ⟨hr, hfo⟩, hnm⟩
      exact ⟨r, hr, hfo, hnm⟩
  · have h1 := is_static_fst_iff t name
    have h2 := is_static_fst_iff t' name
    have hiff : ((is_static t' name).1 = true) ↔ ((is_static t name).1 = true) := by
      rw [h1, h2, hstr]
      constructor
      · rintro ⟨r, hr, hfo, hnm⟩
        exact ⟨r, hperm.mem_iff.mpr hr, hfo, hnm⟩
      · rintro ⟨r, hr, hfo, hnm⟩
        exact ⟨r, hperm.mem_iff.mp hr, hfo, hnm⟩
    cases ha : (is_static t' name).1 <;> cases hb : (is_static t name).1 <;>
      simp_all

/-- Closed instance of C9: two function/object records and one other-type
record, scanned in either order, classify exactly the two names. -/
theorem is_static_classifies_func_obj_names_witness :
    ((is_static
        { recs := [⟨0, 0x02⟩, ⟨1, 0x11⟩, ⟨2, 0x04⟩],
          strtab := fun i => if i = 0 then "a" else if i = 1 then "b" else "c" } "a").1 = true ↔
      "a" ∈ (([⟨0, 0x02⟩, ⟨1, 0x11⟩, ⟨2, 0x04⟩] : List SymRec).filter symIsFuncObj).map
        (fun r => (fun i => if i = 0 then "a" else if i = 1 then "b" else "c") r.st_name))
    ∧ (is_static
        { recs := [⟨1, 0x11⟩, ⟨0, 0x02⟩, ⟨2, 0x04⟩],
          strtab := fun i => if i = 0 then "a" else if i = 1 then "b" else "c" } "a").1
      = (is_static
        { recs := [⟨0, 0x02⟩, ⟨1, 0x11⟩, ⟨2, 0x04⟩],
          strtab := fun i => if i = 0 then "a" else if i = 1 then "b" else "c" } "a").1 :=
  is_static_classifies_func_obj_names
    { recs := [⟨0, 0x02⟩, ⟨1, 0x11⟩, ⟨2, 0x04⟩],
      strtab := fun i => if i = 0 then "a" else if i = 1 then "b" else "c" } "a"
    { recs := [⟨1, 0x11⟩, ⟨0, 0x02⟩, ⟨2, 0x04⟩],
      strtab := fun i => if i = 0 then "a" else if i = 1 then "b" else "c" }
    rfl (List.Perm.swap (⟨1, 0x11⟩ : SymRec) ⟨0, 0x02⟩ [⟨2, 0x04⟩])

/-! ## Debug-Info Type Reconstructor claims -/

/-- Scenario B's unit: `struct node_t { node_t* next; int value; }`, with
the aggregate name and the two member byte offsets left arbitrary. -/
def node_t_cu (nm : Option String) (o1 o2 : Nat) : CU := ⟨[
  { offset := 1, tag := "DW_TAG_structure_type", attrs := { name := nm }, children := [2, 3] },
  { offset := 2, tag := "DW_TAG_member",
    attrs := { name := some "next", typeRef := some 4, dataMemberLocation := some o1 } },
  { offset := 3, tag := "DW_TAG_member",
    attrs := { name := some "value", typeRef := some 5, dataMemberLocation := some o2 } },
  { offset := 4, tag := "DW_TAG_pointer_type", attrs := { typeRef := some 1 } },
  { offset := 5, tag := "DW_TAG_base_type", attrs := { name := some "int" } }]⟩

/-- C4: reconstructing a struct with a pointer-to-self member terminates
(four units of fuel already suffice, because the aggregate is allocated
and cached before its members are resolved) and the `next` member's
pointee model is the very arena object of the enclosing struct
(`.node 0`). -/
theorem node_t_reconstruction_terminates_and_self_references (nm : Option String) (o1 o2 : Nat) :
    die_to_ctype 4 (node_t_cu nm o1 o2) 1 {} =
      ({ cache := [(5, 2), (4, 1), (1, 0)],
         store := [.cstruct nm [(some "next", .node 1), (some "value", .node 2)]
                     [(some "next", o1), (some "value", o2)],
                   .pointer (.node 0),
                   .primitive "int"],
         caught := 0 }, .ok (.node 0))
    ∧ (die_to_ctype 4 (node_t_cu nm o1 o2) 1 {}).1.store[1]? = some (.pointer (.node 0)) :=
  ⟨rfl, rfl⟩

/-- C6: reconstructing a pointer entry whose pointee is an unnamed
function-signature entry returns the pointee's reconstruction unchanged
(value and state), i.e. exactly what reconstructing the bare
function-signature entry itself returns — no extra Pointer node is
allocated and nothing new is cached. -/
theorem pointer_to_subroutine_collapses
    (cu : CU) (poff soff fuel : Nat) (s s' : St) (pd sd : DIE) (r : CRef)
    (hp : cu.getDIE poff = some pd) (hpt : pd.tag = "DW_TAG_pointer_type")
    (href : pd.attrs.typeRef = some soff)
    (hs : cu.getDIE soff = some sd) (hst : sd.tag = "DW_TAG_subroutine_type")
    (hname : sd.attrs.name = none)
    (hmiss : s.cacheLookup poff = none)
    (hrun : die_to_ctype fuel cu soff s = (s', .ok r)) :
    die_to_ctype (fuel + 1) cu poff s = (s', .ok r) := by
  simp only [die_to_ctype, hp, hmiss, die_get_at_type, href, hrun, hpt, hs, hst]
  rfl

/-- The unit for the closed C6 instance: `int (*)(int x)` — a pointer to
an unnamed subroutine-type entry. -/
def fp_example_cu : CU := ⟨[
  { offset := 1, tag := "DW_TAG_pointer_type", attrs := { typeRef := some 2 } },
  { offset := 2, tag := "DW_TAG_subroutine_type", attrs := { typeRef := some 3 }, children := [4] },
  { offset := 3, tag := "DW_TAG_base_type", attrs := { name := some "int" } },
  { offset := 4, tag := "DW_TAG_formal_parameter", attrs := { name := some "x", typeRef := some 3 } }]⟩

/-- Closed instance of C6: the pointer entry reconstructs to the very
function-pointer object of its pointee. -/
theorem pointer_to_subroutine_collapses_witness :
    die_to_ctype 10 fp_example_cu 1 {} =
      ({ cache := [(2, 1), (3, 0)],
         store := [.primitive "int", .funcPtr (.node 0) [(.node 0, none)]],
         caught := 0 }, .ok (.node 1)) :=
  pointer_to_subroutine_collapses fp_example_cu 1 2 9 {} _
    { offset := 1, tag := "DW_TAG_pointer_type", attrs := { typeRef := some 2 } }
    { offset := 2, tag := "DW_TAG_subroutine_type", attrs := { typeRef := some 3 }, children := [4] }
    (.node 1) rfl rfl rfl rfl rfl rfl rfl rfl

/-- The unit for C7's concrete input: `const` over `int[3]` with an
unqualified element type. -/
def const_array_cu : CU := ⟨[
  { offset := 1, tag := "DW_TAG_const_type", attrs := { typeRef := some 2 } },
  { offset := 2, tag := "DW_TAG_array_type", attrs := { typeRef := some 3 }, children := [4] },
  { offset := 3, tag := "DW_TAG_base_type", attrs := { name := some "int" } },
  { offset := 4, tag := "DW_TAG_subrange_type", attrs := { upperBound := some 2 } }]⟩

/-- C7 counterexample: reconstructing the `const` entry over `Array(int, 3)`
yields that very array with its element still the plain `int` object —
not `Array(Const(int), 3)` as the claim states for every element type T.
The full final state shows no `Const` object exists anywhere. -/
theorem cv_array_claim_counterexample :
    die_to_ctype 10 const_array_cu 1 {} =
      ({ cache := [(2, 1), (3, 0)],
         store := [.primitive "int", .array (.node 0) (some 3)],
         caught := 0 }, .ok (.node 1))
    ∧ (die_to_ctype 10 const_array_cu 1 {}).1.store[0]? = some (.primitive "int")
    ∧ ∀ q : CRef, (die_to_ctype 10 const_array_cu 1 {}).1.store[0]? ≠ some (.cconst q) := by
  refine ⟨rfl, rfl, ?_⟩
  intro q h
  rw [show (die_to_ctype 10 const_array_cu 1 {}).1.store[0]? = some (.primitive "int") from rfl] at h
  cases h

/-- C7 amended: reconstructing a const- or volatile-qualified entry whose
inner type resolves to an Array returns that Array object unchanged —
never a Const or Volatile node wrapping the Array (the code relies on the
producer having already qualified the element types; it does not qualify
them itself). -/
theorem cv_over_array_returns_array_unchanged
    (cu : CU) (coff aoff fuel : Nat) (s s' : St) (cd : DIE) (r : CRef)
    (hc : cu.getDIE coff = some cd)
    (hct : cd.tag = "DW_TAG_const_type" ∨ cd.tag = "DW_TAG_volatile_type")
    (href : cd.attrs.typeRef = some aoff)
    (hmiss : s.cacheLookup coff = none)
    (hrun : die_to_ctype fuel cu aoff s = (s', .ok r))
    (harr : s'.isArrayRef r = true) :
    die_to_ctype (fuel + 1) cu coff s = (s', .ok r) := by
  rcases hct with hct | hct <;>
    simp only [die_to_ctype, hc, hmiss, die_get_at_type, href, hrun, hct, harr] <;> rfl

/-- Closed instance of the amended C7 at the `const int[3]` unit. -/
theorem cv_over_array_returns_array_unchanged_witness :
    die_to_ctype 10 const_array_cu 1 {} =
      ({ cache := [(2, 1), (3, 0)],
         store := [.primitive "int", .array (.node 0) (some 3)],
         caught := 0 }, .ok (.node 1)) :=
  cv_over_array_returns_array_unchanged const_array_cu 1 2 9 {} _
    { offset := 1, tag := "DW_TAG_const_type", attrs := { typeRef := some 2 } }
    (.node 1) rfl (Or.inl rfl) rfl rfl rfl rfl

/-! ## Function-signature child classification (`die_to_funclike_args`) -/

/-- A named subprogram whose formal parameter carries no name. -/
def named_func_cu : CU := ⟨[
  { offset := 1, tag := "DW_TAG_subprogram", attrs := { name := some "f" }, children := [2] },
  { offset := 2, tag := "DW_TAG_formal_parameter", attrs := { typeRef := some 3 } },
  { offset := 3, tag := "DW_TAG_base_type", attrs := { name := some "int" } }]⟩

/-- An unnamed function-signature entry whose formal parameter is named
`x`. -/
def unnamed_sig_cu : CU := ⟨[
  { offset := 1, tag := "DW_TAG_subroutine_type", children := [2] },
  { offset := 2, tag := "DW_TAG_formal_parameter",
    attrs := { name := some "x", typeRef := some 3 } },
  { offset := 3, tag := "DW_TAG_base_type", attrs := { name := some "int" } }]⟩

/-- C8's failing inputs: the code keys the name-presence test on the
*function* entry (`die`) while reading the name from the *parameter*
entry (`arg_die`).  So a named function with an unnamed parameter crashes
with a `KeyError` (the claim requires `(type, None)`), and an unnamed
function signature with a parameter named `x` silently drops the name
(the claim requires `(type, "x")`). -/
theorem funclike_args_checks_wrong_die_for_name :
    (die_to_funclike_args (die_to_ctype 10 named_func_cu) named_func_cu
        { offset := 1, tag := "DW_TAG_subprogram", attrs := { name := some "f" },
          children := [2] } {}
      = ({}, .error (.keyError "DW_AT_name")))
    ∧ (die_to_funclike_args (die_to_ctype 10 unnamed_sig_cu) unnamed_sig_cu
        { offset := 1, tag := "DW_TAG_subroutine_type", children := [2] } {}
      = ({ cache := [(3, 0)], store := [.primitive "int"], caught := 0 },
         .ok (.void, [(.node 0, none)]))) :=
  ⟨rfl, rfl⟩

/-! ## Caching-identity machinery (C3)

`die_get_at_type` can swallow a `KeyError` raised after part of the
subtree was already cached; a later reconstruction of the same entry then
resolves past the failure point and can return a different object (see the
counterexample below).  For runs without such a recovery, reconstruction
is replay-stable: re-running it from its own final state returns the very
same reference and changes nothing.  The proof tracks an arrayness oracle
`AK` (which kinds of entries reconstruct to `CArray` objects) plus a cache
invariant: every cached address is live and has the arrayness of its
offset, and offsets whose reconstruction is a pass-through (pointer to a
function signature, qualifier over an array) are never cached. -/

/-- Is this C-type object a `CArray`? -/
def CTypeNode.isArrayNode : CTypeNode → Bool
  | .array _ _ => true
  | _ => false

/-- Is the arena slot `id` a `CArray` object? -/
def St.isArrayAt (s : St) (id : Nat) : Bool :=
  match s.store[id]? with
  | some n => n.isArrayNode
  | none => false

/-- What one reconstruction step can do to the state: the ghost catch
counter and the arena only grow, existing objects keep their
constructor's arrayness, and cache entries present before are still found
with the same value afterwards. -/
def StFrame (s s' : St) : Prop :=
  s.caught ≤ s'.caught ∧ s.store.length ≤ s'.store.length ∧
  (∀ id, id < s.store.length → s'.isArrayAt id = s.isArrayAt id) ∧
  (∀ k v, s.cacheLookup k = some v → s'.cacheLookup k = some v)

theorem stFrame_rfl (s : St) : StFrame s s :=
  ⟨le_refl _, le_refl _, fun _ _ => rfl, fun _ _ h => h⟩

theorem stFrame_trans {s1 s2 s3 : St} (h1 : StFrame s1 s2) (h2 : StFrame s2 s3) :
    StFrame s1 s3 :=
  ⟨le_trans h1.1 h2.1, le_trans h1.2.1 h2.2.1,
   fun id hid => (h2.2.2.1 id (lt_of_lt_of_le hid h1.2.1)).trans (h1.2.2.1 id hid),
   fun k v hk => h2.2.2.2 k v (h1.2.2.2 k v hk)⟩

/-- A coherent arrayness oracle for a unit: arrays reconstruct to arrays,
qualifiers inherit their inner entry's arrayness, everything else is not
an array. -/
def AKCoherent (cu : CU) (AK : Nat → Bool) : Prop :=
  ∀ off d, cu.getDIE off = some d →
    AK off = (if d.tag == "DW_TAG_array_type" then true
      else if d.tag == "DW_TAG_const_type" || d.tag == "DW_TAG_volatile_type" then
        (match d.attrs.typeRef with
         | some rr => AK rr
         | none => false)
      else false)

/-- The offset reconstructs through the pointer-to-function-signature
pass-through (never cached). -/
def PassPtr (cu : CU) (off : Nat) : Prop :=
  ∃ d rr dd, cu.getDIE off = some d ∧ d.tag = "DW_TAG_pointer_type" ∧
    d.attrs.typeRef = some rr ∧ cu.getDIE rr = some dd ∧ dd.tag = "DW_TAG_subroutine_type"

/-- The offset reconstructs through the qualifier-over-array pass-through
(never cached). -/
def PassCv (cu : CU) (AK : Nat → Bool) (off : Nat) : Prop :=
  ∃ d rr, cu.getDIE off = some d ∧
    (d.tag = "DW_TAG_const_type" ∨ d.tag = "DW_TAG_volatile_type") ∧
    d.attrs.typeRef = some rr ∧ AK rr = true

/-- The reconstruction cache invariant, relative to the oracle. -/
def CacheInv (cu : CU) (AK : Nat → Bool) (s : St) : Prop :=
  (∀ k id, s.cacheLookup k = some id → id < s.store.length ∧ s.isArrayAt id = AK k)
  ∧ (∀ k, PassPtr cu k → s.cacheLookup k = none)
  ∧ (∀ k, PassCv cu AK k → s.cacheLookup k = none)

theorem cacheInv_empty (cu : CU) (AK : Nat → Bool) : CacheInv cu AK {} := by
  constructor
  · intro k id h
    exact nomatch h
  constructor
  · intro k h
    rfl
  · intro k h
    rfl

/-! Elementary state-operation lemmas. -/

theorem cacheLookup_alloc (s : St) (off : Nat) (n : CTypeNode) (k : Nat) :
    (s.alloc off n).1.cacheLookup k =
      if k = off then some s.store.length else s.cacheLookup k := by
  by_cases h : k = off
  · subst h
    simp [St.alloc, St.cacheLookup, List.find?]
  · have hb : (off == k) = false := beq_eq_false_iff_ne.mpr (Ne.symm h)
    simp [St.alloc, St.cacheLookup, List.find?, hb, h]

theorem caught_alloc (s : St) (off : Nat) (n : CTypeNode) :
    (s.alloc off n).1.caught = s.caught := rfl

theorem storeLength_alloc (s : St) (off : Nat) (n : CTypeNode) :
    (s.alloc off n).1.store.length = s.store.length + 1 := by
  simp [St.alloc]

theorem isArrayAt_alloc (s : St) (off : Nat) (n : CTypeNode) (id : Nat) :
    (s.alloc off n).1.isArrayAt id =
      if id = s.store.length then n.isArrayNode else s.isArrayAt id := by
  simp only [St.alloc, St.isArrayAt]
  rw [List.getElem?_append]
  by_cases h : id = s.store.length
  · subst h
    simp
  · rw [if_neg h]
    rcases Nat.lt_or_ge id s.store.length with hlt | hge
    · rw [if_pos hlt]
    · have hgt : s.store.length < id := lt_of_le_of_ne hge (Ne.symm h)
      rw [if_neg (not_lt.mpr hge)]
      have h1 : ([n] : List CTypeNode)[id - s.store.length]? = none := by
        apply List.getElem?_eq_none
        simp only [List.length_singleton]
        omega
      have h2 : s.store[id]? = none := List.getElem?_eq_none hge
      rw [h1, h2]

theorem cacheLookup_updateNode (s : St) (id : Nat) (f : CTypeNode → CTypeNode) (k : Nat) :
    (s.updateNode id f).cacheLookup k = s.cacheLookup k := rfl

theorem caught_updateNode (s : St) (id : Nat) (f : CTypeNode → CTypeNode) :
    (s.updateNode id f).caught = s.caught := rfl

theorem storeLength_updateNode (s : St) (id : Nat) (f : CTypeNode → CTypeNode) :
    (s.updateNode id f).store.length = s.store.length := by
  simp [St.updateNode]

theorem isArrayAt_updateNode (s : St) (id : Nat) (f : CTypeNode → CTypeNode)
    (hf : ∀ m, (f m).isArrayNode = m.isArrayNode) (id' : Nat) :
    (s.updateNode id f).isArrayAt id' = s.isArrayAt id' := by
  simp only [St.updateNode, St.isArrayAt]
  by_cases h : id' = id
  · subst h
    rcases Nat.lt_or_ge id' s.store.length with hlt | hge
    · rw [List.getElem?_set_eq_of_lt _ hlt]
      rw [List.getElem?_eq_getElem hlt]
      simp [hf]
    · rw [List.set_eq_of_length_le hge]
  · rw [List.getElem?_set_ne (fun hh => h hh.symm)]

theorem isArrayRef_node (s : St) (id : Nat) : s.isArrayRef (.node id) = s.isArrayAt id := by
  simp only [St.isArrayRef, St.isArrayAt]
  cases h : s.store[id]? with
  | none => rfl
  | some n => cases n <;> rfl

theorem isArrayRef_void (s : St) : s.isArrayRef .void = false := rfl

theorem cacheInv_caught {cu : CU} {AK : Nat → Bool} {s : St} (h : CacheInv cu AK s) (c : Nat) :
    CacheInv cu AK { s with caught := c } := h

theorem stFrame_caught_succ {s s' : St} (h : StFrame s s') :
    StFrame s { s' with caught := s'.caught + 1 } :=
  ⟨le_trans h.1 (Nat.le_succ _), h.2.1, h.2.2.1, h.2.2.2⟩

theorem stFrame_alloc (s : St) (off : Nat) (n : CTypeNode) (hmiss : s.cacheLookup off = none) :
    StFrame s (s.alloc off n).1 := by
  refine ⟨le_of_eq (caught_alloc s off n).symm, ?_, ?_, ?_⟩
  · rw [storeLength_alloc]
    exact Nat.le_succ _
  · intro id hid
    rw [isArrayAt_alloc, if_neg (Nat.ne_of_lt hid)]
  · intro k v hk
    rw [cacheLookup_alloc]
    rw [if_neg]
    · exact hk
    · intro hkeq
      rw [hkeq, hmiss] at hk
      cases hk

theorem cacheInv_alloc {cu : CU} {AK : Nat → Bool} {s : St} (hInv : CacheInv cu AK s)
    (off : Nat) (n : CTypeNode) (harr : n.isArrayNode = AK off)
    (hpp : ¬ PassPtr cu off) (hpcv : ¬ PassCv cu AK off) :
    CacheInv cu AK (s.alloc off n).1 := by
  constructor
  · intro k id h
    rw [cacheLookup_alloc] at h
    by_cases hk : k = off
    · rw [if_pos hk] at h
      injection h with h
      subst h
      subst hk
      constructor
      · rw [storeLength_alloc]
        exact Nat.lt_succ_self _
      · rw [isArrayAt_alloc, if_pos rfl, harr]
    · rw [if_neg hk] at h
      obtain ⟨hlt, harr'⟩ := hInv.1 k id h
      constructor
      · rw [storeLength_alloc]
        exact Nat.lt_succ_of_lt hlt
      · rw [isArrayAt_alloc, if_neg (Nat.ne_of_lt hlt), harr']
  constructor
  · intro k h
    rw [cacheLookup_alloc]
    by_cases hk : k = off
    · exact absurd (hk ▸ h) hpp
    · rw [if_neg hk]
      exact hInv.2.1 k h
  · intro k h
    rw [cacheLookup_alloc]
    by_cases hk : k = off
    · exact absurd (hk ▸ h) hpcv
    · rw [if_neg hk]
      exact hInv.2.2 k h

theorem cacheInv_updateNode {cu : CU} {AK : Nat → Bool} {s : St} (hInv : CacheInv cu AK s)
    (id : Nat) (f : CTypeNode → CTypeNode)
    (hf : ∀ m, (f m).isArrayNode = m.isArrayNode) :
    CacheInv cu AK (s.updateNode id f) := by
  constructor
  · intro k i h
    rw [cacheLookup_updateNode] at h
    obtain ⟨hlt, harr⟩ := hInv.1 k i h
    constructor
    · rw [storeLength_updateNode]
      exact hlt
    · rw [isArrayAt_updateNode s id f hf, harr]
  constructor
  · intro k h
    rw [cacheLookup_updateNode]
    exact hInv.2.1 k h
  · intro k h
    rw [cacheLookup_updateNode]
    exact hInv.2.2 k h

theorem stFrame_updateNode (s : St) (id : Nat) (f : CTypeNode → CTypeNode)
    (hf : ∀ m, (f m).isArrayNode = m.isArrayNode) :
    StFrame s (s.updateNode id f) := by
  refine ⟨le_of_eq (caught_updateNode s id f).symm,
    le_of_eq (storeLength_updateNode s id f).symm, ?_, ?_⟩
  · intro i _
    exact isArrayAt_updateNode s id f hf i
  · intro k v hk
    rw [cacheLookup_updateNode]
    exact hk

theorem setMember_isArrayNode (key : Option String) (v : CRef) (m : CTypeNode) :
    (m.setMember key v).isArrayNode = m.isArrayNode := by
  cases m <;> rfl

theorem setMemberOffset_isArrayNode (key : Option String) (o : Nat) (m : CTypeNode) :
    (m.setMemberOffset key o).isArrayNode = m.isArrayNode := by
  cases m <;> rfl

theorem setEnumMember_isArrayNode (key : Option String) (v : Int) (m : CTypeNode) :
    (m.setEnumMember key v).isArrayNode = m.isArrayNode := by
  cases m <;> rfl

/-- The induction package for one reconstruction function: it keeps the
frame and the cache invariant, successful results have the oracle's
arrayness, and a `KeyError` can only escape from offsets the oracle marks
non-array. -/
def EvalSpec (cu : CU) (AK : Nat → Bool) (ev : Nat → St → Res) : Prop :=
  ∀ off s s' res, ev off s = (s', res) → CacheInv cu AK s →
    StFrame s s' ∧ CacheInv cu AK s'
    ∧ (∀ r, res = .ok r → s'.isArrayRef r = AK off)
    ∧ (∀ m, res = .error (.keyError m) → AK off = false)

theorem die_get_at_type_spec {cu : CU} {AK : Nat → Bool} {recur : Nat → St → Res}
    (hrec : EvalSpec cu AK recur) (d : DIE) (s s' : St) (res : Except Err CRef)
    (h : die_get_at_type recur d s = (s', res)) (hInv : CacheInv cu AK s) :
    StFrame s s' ∧ CacheInv cu AK s'
    ∧ (∀ r, res = .ok r → s'.isArrayRef r = ((d.attrs.typeRef.map AK).getD false))
    ∧ (∀ e, res ≠ .error (.keyError e)) := by
  cases htr : d.attrs.typeRef with
  | none =>
    simp only [die_get_at_type, htr] at h
    cases h
    refine ⟨stFrame_rfl s, hInv, ?_, ?_⟩
    · intro r hr
      cases hr
      rfl
    · intro e he
      cases he
  | some rr =>
    cases hrun : recur rr s with
    | mk s1 res1 =>
      obtain ⟨hF, hI, hok, hkey⟩ := hrec rr s s1 res1 hrun hInv
      cases res1 with
      | ok r1 =>
        simp only [die_get_at_type, htr, hrun] at h
        cases h
        refine ⟨hF, hI, ?_, ?_⟩
        · intro r hr
          injection hr with hr
          subst hr
          rw [hok r1 rfl]
          rfl
        · intro e he
          cases he
      | error e1 =>
        cases e1 with
        | keyError m =>
          simp only [die_get_at_type, htr, hrun] at h
          cases h
          refine ⟨stFrame_caught_succ hF, cacheInv_caught hI _, ?_, ?_⟩
          · intro r hr
            cases hr
            rw [isArrayRef_void,
              show ((Option.map AK (some rr)).getD false) = AK rr from rfl, hkey m rfl]
          · intro e he
            cases he
        | typeError m =>
          simp only [die_get_at_type, htr, hrun] at h
          cases h
          refine ⟨hF, hI, ?_, ?_⟩
          · intro r hr
            cases hr
          · intro e he
            simp at he
        | valueError m =>
          simp only [die_get_at_type, htr, hrun] at h
          cases h
          refine ⟨hF, hI, ?_, ?_⟩
          · intro r hr
            cases hr
          · intro e he
            simp at he
        | missingDie =>
          simp only [die_get_at_type, htr, hrun] at h
          cases h
          refine ⟨hF, hI, ?_, ?_⟩
          · intro r hr
            cases hr
          · intro e he
            simp at he
        | fuel =>
          simp only [die_get_at_type, htr, hrun] at h
          cases h
          refine ⟨hF, hI, ?_, ?_⟩
          · intro r hr
            cases hr
          · intro e he
            simp at he

theorem struct_members_loop_spec {cu : CU} {AK : Nat → Bool} {recur : Nat → St → Res}
    (hrec : EvalSpec cu AK recur) (id : Nat) :
    ∀ (children : List Nat) (s s' : St) (res : Except Err CRef),
      struct_members_loop recur cu id children s = (s', res) → CacheInv cu AK s →
      StFrame s s' ∧ CacheInv cu AK s' ∧ (∀ r, res = .ok r → r = .node id) := by
  intro children
  induction children with
  | nil =>
    intro s s' res h hInv
    cases h
    refine ⟨stFrame_rfl s, hInv, ?_⟩
    intro r hr
    injection hr with hr
    exact hr.symm
  | cons coff rest ih =>
    intro s s' res h hInv
    cases hg : cu.getDIE coff with
    | none =>
      simp only [struct_members_loop, hg] at h
      cases h
      refine ⟨stFrame_rfl s, hInv, ?_⟩
      intro r hr
      cases hr
    | some c =>
      by_cases htag : (c.tag == "DW_TAG_member") = true
      · cases hat : die_get_at_type recur c s with
        | mk s1 res1 =>
          obtain ⟨hF1, hI1, _, _⟩ := die_get_at_type_spec hrec c s s1 res1 hat hInv
          cases res1 with
          | error e =>
            simp only [struct_members_loop, hg, htag, if_true, hat] at h
            cases h
            refine ⟨hF1, hI1, ?_⟩
            intro r hr
            cases hr
          | ok ty =>
            cases hdm : c.attrs.dataMemberLocation with
            | none =>
              simp only [struct_members_loop, hg, htag, if_true, hat, hdm] at h
              cases h
              refine ⟨stFrame_trans hF1 (stFrame_updateNode s1 id _
                (setMember_isArrayNode c.attrs.name ty)),
                cacheInv_updateNode hI1 id _ (setMember_isArrayNode c.attrs.name ty), ?_⟩
              intro r hr
              cases hr
            | some off =>
              simp only [struct_members_loop, hg, htag, if_true, hat, hdm] at h
              have hI3 : CacheInv cu AK
                  (((s1.updateNode id (·.setMember c.attrs.name ty)).updateNode id
                    (·.setMemberOffset c.attrs.name off))) :=
                cacheInv_updateNode
                  (cacheInv_updateNode hI1 id _ (setMember_isArrayNode c.attrs.name ty)) id _
                  (setMemberOffset_isArrayNode c.attrs.name off)
              obtain ⟨hF2, hI2, hok2⟩ := ih _ s' res h hI3
              refine ⟨?_, hI2, hok2⟩
              exact stFrame_trans hF1 (stFrame_trans
                (stFrame_updateNode s1 id _ (setMember_isArrayNode c.attrs.name ty))
                (stFrame_trans (stFrame_updateNode _ id _
                  (setMemberOffset_isArrayNode c.attrs.name off)) hF2))
      · simp only [struct_members_loop, hg] at h
        rw [if_neg htag] at h
        exact ih s s' res h hInv

theorem union_members_loop_spec {cu : CU} {AK : Nat → Bool} {recur : Nat → St → Res}
    (hrec : EvalSpec cu AK recur) (id : Nat) :
    ∀ (children : List Nat) (s s' : St) (res : Except Err CRef),
      union_members_loop recur cu id children s = (s', res) → CacheInv cu AK s →
      StFrame s s' ∧ CacheInv cu AK s' ∧ (∀ r, res = .ok r → r = .node id) := by
  intro children
  induction children with
  | nil =>
    intro s s' res h hInv
    cases h
    refine ⟨stFrame_rfl s, hInv, ?_⟩
    intro r hr
    injection hr with hr
    exact hr.symm
  | cons coff rest ih =>
    intro s s' res h hInv
    cases hg : cu.getDIE coff with
    | none =>
      simp only [union_members_loop, hg] at h
      cases h
      refine ⟨stFrame_rfl s, hInv, ?_⟩
      intro r hr
      cases hr
    | some c =>
      by_cases htag : (c.tag == "DW_TAG_member") = true
      · cases hat : die_get_at_type recur c s with
        | mk s1 res1 =>
          obtain ⟨hF1, hI1, _, _⟩ := die_get_at_type_spec hrec c s s1 res1 hat hInv
          cases res1 with
          | error e =>
            simp only [union_members_loop, hg, htag, if_true, hat] at h
            cases h
            refine ⟨hF1, hI1, ?_⟩
            intro r hr
            cases hr
          | ok ty =>
            simp only [union_members_loop, hg, htag, if_true, hat] at h
            have hI3 : CacheInv cu AK (s1.updateNode id (·.setMember c.attrs.name ty)) :=
              cacheInv_updateNode hI1 id _ (setMember_isArrayNode c.attrs.name ty)
            obtain ⟨hF2, hI2, hok2⟩ := ih _ s' res h hI3
            refine ⟨?_, hI2, hok2⟩
            exact stFrame_trans hF1 (stFrame_trans
              (stFrame_updateNode s1 id _ (setMember_isArrayNode c.attrs.name ty)) hF2)
      · simp only [union_members_loop, hg] at h
        rw [if_neg htag] at h
        exact ih s s' res h hInv

theorem enum_members_loop_spec {cu : CU} {AK : Nat → Bool} (id : Nat) :
    ∀ (children : List Nat) (s s' : St) (res : Except Err CRef),
      enum_members_loop cu id children s = (s', res) → CacheInv cu AK s →
      StFrame s s' ∧ CacheInv cu AK s' ∧ (∀ r, res = .ok r → r = .node id) := by
  intro children
  induction children with
  | nil =>
    intro s s' res h hInv
    cases h
    refine ⟨stFrame_rfl s, hInv, ?_⟩
    intro r hr
    injection hr with hr
    exact hr.symm
  | cons coff rest ih =>
    intro s s' res h hInv
    cases hg : cu.getDIE coff with
    | none =>
      simp only [enum_members_loop, hg] at h
      cases h
      refine ⟨stFrame_rfl s, hInv, ?_⟩
      intro r hr
      cases hr
    | some c =>
      by_cases htag : (c.tag == "DW_TAG_enumerator") = true
      · cases hcv : c.attrs.constValue with
        | none =>
          simp only [enum_members_loop, hg, htag, if_true, hcv] at h
          cases h
          refine ⟨stFrame_rfl s, hInv, ?_⟩
          intro r hr
          cases hr
        | some v =>
          simp only [enum_members_loop, hg, htag, if_true, hcv] at h
          have hI3 : CacheInv cu AK (s.updateNode id (·.setEnumMember c.attrs.name v)) :=
            cacheInv_updateNode hInv id _ (setEnumMember_isArrayNode c.attrs.name v)
          obtain ⟨hF2, hI2, hok2⟩ := ih _ s' res h hI3
          refine ⟨?_, hI2, hok2⟩
          exact stFrame_trans
            (stFrame_updateNode s id _ (setEnumMember_isArrayNode c.attrs.name v)) hF2
      · simp only [enum_members_loop, hg] at h
        rw [if_neg htag] at h
        exact ih s s' res h hInv

theorem funclike_args_loop_spec {cu : CU} {AK : Nat → Bool} {recur : Nat → St → Res}
    (hrec : EvalSpec cu AK recur) (parent : DIE) :
    ∀ (children : List Nat) (acc : List (CRef × Option String)) (s s' : St)
      (res : Except Err (List (CRef × Option String))),
      funclike_args_loop recur cu parent children acc s = (s', res) → CacheInv cu AK s →
      StFrame s s' ∧ CacheInv cu AK s' := by
  intro children
  induction children with
  | nil =>
    intro acc s s' res h hInv
    cases h
    exact ⟨stFrame_rfl s, hInv⟩
  | cons coff rest ih =>
    intro acc s s' res h hInv
    cases hg : cu.getDIE coff with
    | none =>
      simp only [funclike_args_loop, hg] at h
      cases h
      exact ⟨stFrame_rfl s, hInv⟩
    | some c =>
      by_cases htag1 : (c.tag == "DW_TAG_formal_parameter") = true
      · by_cases hpn : parent.attrs.name.isSome = true
        · cases hnm : c.attrs.name with
          | none =>
            simp only [funclike_args_loop, hg, htag1, if_true, hpn, hnm] at h
            cases h
            exact ⟨stFrame_rfl s, hInv⟩
          | some n =>
            cases htr : c.attrs.typeRef with
            | none =>
              simp only [funclike_args_loop, hg, htag1, if_true, hpn, hnm, htr] at h
              cases h
              exact ⟨stFrame_rfl s, hInv⟩
            | some r =>
              cases hrun : recur r s with
              | mk s1 res1 =>
                obtain ⟨hF1, hI1, _, _⟩ := hrec r s s1 res1 hrun hInv
                cases res1 with
                | error e =>
                  simp only [funclike_args_loop, hg, htag1, if_true, hpn, hnm, htr, hrun] at h
                  cases h
                  exact ⟨hF1, hI1⟩
                | ok ty =>
                  simp only [funclike_args_loop, hg, htag1, if_true, hpn, hnm, htr, hrun] at h
                  obtain ⟨hF2, hI2⟩ := ih _ s1 s' res h hI1
                  exact ⟨stFrame_trans hF1 hF2, hI2⟩
        · have hpn' : parent.attrs.name.isSome = false := by
            cases hx : parent.attrs.name.isSome
            · rfl
            · exact absurd hx hpn
          cases htr : c.attrs.typeRef with
          | none =>
            simp only [funclike_args_loop, hg, htag1, if_true, hpn', htr] at h
            cases h
            exact ⟨stFrame_rfl s, hInv⟩
          | some r =>
            cases hrun : recur r s with
            | mk s1 res1 =>
              obtain ⟨hF1, hI1, _, _⟩ := hrec r s s1 res1 hrun hInv
              cases res1 with
              | error e =>
                simp only [funclike_args_loop, hg, htag1, if_true, hpn', htr, hrun] at h
                cases h
                exact ⟨hF1, hI1⟩
              | ok ty =>
                simp only [funclike_args_loop, hg, htag1, if_true, hpn', htr, hrun] at h
                obtain ⟨hF2, hI2⟩ := ih _ s1 s' res h hI1
                exact ⟨stFrame_trans hF1 hF2, hI2⟩
      · by_cases htag2 : (c.tag == "DW_TAG_unspecified_parameters") = true
        · simp only [funclike_args_loop, hg, htag1, htag2] at h
          exact ih _ s s' res h hInv
        · by_cases htag3 : (c.tag == "DW_TAG_variable" || c.tag == "DW_TAG_inlined_subroutine"
              || c.tag == "DW_TAG_lexical_block" || c.tag == "DW_TAG_subprogram"
              || c.tag == "DW_TAG_label" || c.tag.startsWith "DW_TAG_GNU"
              || c.tag.endsWith "_type") = true
          · simp only [funclike_args_loop, hg, htag1, htag2, htag3] at h
            exact ih _ s s' res h hInv
          · simp only [funclike_args_loop, hg, htag1, htag2, htag3] at h
            cases h
            exact ⟨stFrame_rfl s, hInv⟩

theorem die_to_funclike_args_spec {cu : CU} {AK : Nat → Bool} {recur : Nat → St → Res}
    (hrec : EvalSpec cu AK recur) (d : DIE) (s s' : St)
    (res : Except Err (CRef × List (CRef × Option String)))
    (h : die_to_funclike_args recur cu d s = (s', res)) (hInv : CacheInv cu AK s) :
    StFrame s s' ∧ CacheInv cu AK s' := by
  by_cases htag : (d.tag == "DW_TAG_subroutine_type" || d.tag == "DW_TAG_subprogram") = true
  · cases hat : die_get_at_type recur d s with
    | mk s1 res1 =>
      obtain ⟨hF1, hI1, _, _⟩ := die_get_at_type_spec hrec d s s1 res1 hat hInv
      cases res1 with
      | error e =>
        simp only [die_to_funclike_args, htag, if_true, hat] at h
        cases h
        exact ⟨hF1, hI1⟩
      | ok ret =>
        cases hloop : funclike_args_loop recur cu d d.children [] s1 with
        | mk s2 res2 =>
          obtain ⟨hF2, hI2⟩ := funclike_args_loop_spec hrec d d.children [] s1 s2 res2 hloop hI1
          cases res2 with
          | error e =>
            simp only [die_to_funclike_args, htag, if_true, hat, hloop] at h
            cases h
            exact ⟨stFrame_trans hF1 hF2, hI2⟩
          | ok args =>
            simp only [die_to_funclike_args, htag, if_true, hat, hloop] at h
            cases h
            exact ⟨stFrame_trans hF1 hF2, hI2⟩
  · simp only [die_to_funclike_args, htag] at h
    cases h
    exact ⟨stFrame_rfl s, hInv⟩

theorem stFrame_alloc_after {s s1 : St} (hF : StFrame s s1) (off : Nat) (n : CTypeNode)
    (hmiss : s.cacheLookup off = none) : StFrame s (s1.alloc off n).1 := by
  refine ⟨?_, ?_, ?_, ?_⟩
  · rw [caught_alloc]
    exact hF.1
  · rw [storeLength_alloc]
    exact le_trans hF.2.1 (Nat.le_succ _)
  · intro id hid
    rw [isArrayAt_alloc, if_neg (Nat.ne_of_lt (lt_of_lt_of_le hid hF.2.1))]
    exact hF.2.2.1 id hid
  · intro k v hk
    rw [cacheLookup_alloc, if_neg]
    · exact hF.2.2.2 k v hk
    · intro hkeq
      rw [hkeq, hmiss] at hk
      cases hk

theorem allocRes_arr (s : St) (off : Nat) (n : CTypeNode) :
    (s.alloc off n).1.isArrayRef ((s.alloc off n).2) = n.isArrayNode := by
  rw [show (s.alloc off n).2 = CRef.node s.store.length from rfl, isArrayRef_node,
    isArrayAt_alloc, if_pos rfl]

theorem notPassPtr_of_tag {cu : CU} {off : Nat} {die : DIE} (hg : cu.getDIE off = some die)
    (hne : die.tag ≠ "DW_TAG_pointer_type") : ¬ PassPtr cu off := by
  rintro ⟨d, rr, dd, hgd, htagd, -, -, -⟩
  rw [hg] at hgd
  injection hgd with hgd
  exact hne (hgd ▸ htagd)

theorem notPassCv_of_tag {cu : CU} {AK : Nat → Bool} {off : Nat} {die : DIE}
    (hg : cu.getDIE off = some die)
    (hne1 : die.tag ≠ "DW_TAG_const_type") (hne2 : die.tag ≠ "DW_TAG_volatile_type") :
    ¬ PassCv cu AK off := by
  rintro ⟨d, rr, hgd, htagd, -, -⟩
  rw [hg] at hgd
  injection hgd with hgd
  subst hgd
  rcases htagd with h | h
  · exact hne1 h
  · exact hne2 h


/-- The reconstruction induction: `die_to_ctype` preserves the frame and
the cache invariant, yields results whose arrayness matches the oracle,
and lets a `KeyError` escape only from oracle-non-array offsets. -/
theorem evalSpec_die_to_ctype {cu : CU} {AK : Nat → Bool} (hAK : AKCoherent cu AK) :
    ∀ fuel, EvalSpec cu AK (die_to_ctype fuel cu) := by
  intro fuel
  induction fuel with
  | zero =>
    intro off s s' res h hInv
    cases h
    refine ⟨stFrame_rfl s, hInv, ?_, ?_⟩
    · intro r hr
      cases hr
    · intro m hm
      simp at hm
  | succ n ih =>
    intro off s s' res h hInv
    cases hg : cu.getDIE off with
    | none =>
      simp only [die_to_ctype, hg] at h
      cases h
      refine ⟨stFrame_rfl s, hInv, ?_, ?_⟩
      · intro r hr
        cases hr
      · intro m hm
        simp at hm
    | some die =>
      cases hcl : s.cacheLookup off with
      | some id =>
        simp only [die_to_ctype, hg, hcl] at h
        cases h
        refine ⟨stFrame_rfl s, hInv, ?_, ?_⟩
        · intro r hr
          injection hr with hr
          subst hr
          rw [isArrayRef_node]
          exact (hInv.1 off id hcl).2
        · intro m hm
          cases hm
      | none =>
        by_cases t1 : (die.tag == "DW_TAG_pointer_type") = true
        · -- DW_TAG_pointer_type
          have hteq : die.tag = "DW_TAG_pointer_type" := eq_of_beq t1
          have hak : AK off = false := by
            rw [hAK off die hg, hteq]
            rfl
          cases hat : die_get_at_type (die_to_ctype n cu) die s with
          | mk s1 res1 =>
            obtain ⟨hF1, hI1, hok1, hnk1⟩ := die_get_at_type_spec ih die s s1 res1 hat hInv
            cases res1 with
            | error e =>
              simp only [die_to_ctype, hg, hcl, hteq, hat] at h
              cases h
              refine ⟨hF1, hI1, ?_, ?_⟩
              · intro r hr
                cases hr
              · intro m _
                exact hak
            | ok of =>
              cases htr : die.attrs.typeRef with
              | none =>
                simp only [die_to_ctype, hg, hcl, hteq, hat, htr, allocRes] at h
                cases h
                refine ⟨stFrame_alloc_after hF1 off _ hcl,
                  cacheInv_alloc hI1 off _ (by rw [hak]; rfl)
                    (by rintro ⟨d, rr, dd, hgd, -, htrd, -, -⟩
                        rw [hg] at hgd
                        injection hgd with hgd
                        subst hgd
                        rw [htr] at htrd
                        cases htrd)
                    (notPassCv_of_tag hg (by rw [hteq]; decide) (by rw [hteq]; decide)), ?_, ?_⟩
                · intro r hr
                  injection hr with hr
                  subst hr
                  rw [allocRes_arr, hak]
                  rfl
                · intro m hm
                  cases hm
              | some rr =>
                cases hgr : cu.getDIE rr with
                | none =>
                  simp only [die_to_ctype, hg, hcl, hteq, hat, htr, hgr] at h
                  cases h
                  refine ⟨hF1, hI1, ?_, ?_⟩
                  · intro r hr
                    cases hr
                  · intro m _
                    exact hak
                | some ofDie =>
                  by_cases hsub : (ofDie.tag == "DW_TAG_subroutine_type") = true
                  · have hsteq : ofDie.tag = "DW_TAG_subroutine_type" := eq_of_beq hsub
                    simp only [die_to_ctype, hg, hcl, hteq, hat, htr, hgr, hsteq] at h
                    cases h
                    have hakrr : AK rr = false := by
                      rw [hAK rr ofDie hgr, hsteq]
                      rfl
                    refine ⟨hF1, hI1, ?_, ?_⟩
                    · intro r hr
                      injection hr with hr
                      subst hr
                      have P := hok1 _ rfl
                      rw [htr] at P
                      rw [P, hak]
                      rw [show (Option.map AK (some rr)).getD false = AK rr from rfl, hakrr]
                    · intro m _
                      exact hak
                  · have hsub' : (ofDie.tag == "DW_TAG_subroutine_type") = false := by
                      cases hx : (ofDie.tag == "DW_TAG_subroutine_type")
                      · rfl
                      · exact absurd hx hsub
                    simp only [die_to_ctype, hg, hcl, hteq, hat, htr, hgr, hsub',
                      Bool.false_eq_true, if_false, allocRes] at h
                    cases h
                    refine ⟨stFrame_alloc_after hF1 off _ hcl,
                      cacheInv_alloc hI1 off _ (by rw [hak]; rfl)
                        (by rintro ⟨d, rr', dd, hgd, -, htrd, hgrd, htagdd⟩
                            rw [hg] at hgd
                            injection hgd with hgd
                            subst hgd
                            rw [htr] at htrd
                            injection htrd with htrd
                            subst htrd
                            rw [hgr] at hgrd
                            injection hgrd with hgrd
                            subst hgrd
                            rw [htagdd] at hsub'
                            simp at hsub')
                        (notPassCv_of_tag hg (by rw [hteq]; decide) (by rw [hteq]; decide)),
                      ?_, ?_⟩
                    · intro r hr
                      injection hr with hr
                      subst hr
                      rw [allocRes_arr, hak]
                      rfl
                    · intro m hm
                      cases hm
        · by_cases t2 : (die.tag == "DW_TAG_array_type") = true
          · -- DW_TAG_array_type
            have hteq : die.tag = "DW_TAG_array_type" := eq_of_beq t2
            have hak : AK off = true := by
              rw [hAK off die hg, hteq]
              rfl
            cases hat : die_get_at_type (die_to_ctype n cu) die s with
            | mk s1 res1 =>
              obtain ⟨hF1, hI1, hok1, hnk1⟩ := die_get_at_type_spec ih die s s1 res1 hat hInv
              cases res1 with
              | error e =>
                simp only [die_to_ctype, hg, hcl, hteq, hat] at h
                cases h
                refine ⟨hF1, hI1, ?_, ?_⟩
                · intro r hr
                  cases hr
                · intro m hm
                  exact absurd hm (hnk1 m)
              | ok of =>
                simp only [die_to_ctype, hg, hcl, hteq, hat, allocRes] at h
                cases h
                refine ⟨stFrame_alloc_after hF1 off _ hcl,
                  cacheInv_alloc hI1 off _ (by rw [hak]; rfl)
                    (notPassPtr_of_tag hg (by rw [hteq]; decide))
                    (notPassCv_of_tag hg (by rw [hteq]; decide) (by rw [hteq]; decide)),
                  ?_, ?_⟩
                · intro r hr
                  injection hr with hr
                  subst hr
                  rw [allocRes_arr, hak]
                  rfl
                · intro m hm
                  cases hm
          · by_cases t3 : (die.tag == "DW_TAG_structure_type") = true
            · -- DW_TAG_structure_type
              have hteq : die.tag = "DW_TAG_structure_type" := eq_of_beq t3
              have hak : AK off = false := by
                rw [hAK off die hg, hteq]
                rfl
              have hInv1 : CacheInv cu AK (s.alloc off (.cstruct die.attrs.name [] [])).1 :=
                cacheInv_alloc hInv off _ (by rw [hak]; rfl)
                  (notPassPtr_of_tag hg (by rw [hteq]; decide))
                  (notPassCv_of_tag hg (by rw [hteq]; decide) (by rw [hteq]; decide))
              simp only [die_to_ctype, hg, hcl, hteq] at h
              obtain ⟨hF2, hI2, hok2⟩ :=
                struct_members_loop_spec ih s.store.length die.children _ s' res h hInv1
              refine ⟨stFrame_trans (stFrame_alloc_after (stFrame_rfl s) off _ hcl) hF2,
                hI2, ?_, ?_⟩
              · intro r hr
                have hrid := hok2 r hr
                subst hrid
                rw [isArrayRef_node]
                have hlt : s.store.length
                    < (s.alloc off (.cstruct die.attrs.name [] [])).1.store.length := by
                  rw [storeLength_alloc]
                  exact Nat.lt_succ_self _
                rw [hF2.2.2.1 s.store.length hlt, isArrayAt_alloc, if_pos rfl, hak]
                rfl
              · intro m _
                exact hak
            · by_cases t4 : (die.tag == "DW_TAG_union_type") = true
              · -- DW_TAG_union_type
                have hteq : die.tag = "DW_TAG_union_type" := eq_of_beq t4
                have hak : AK off = false := by
                  rw [hAK off die hg, hteq]
                  rfl
                have hInv1 : CacheInv cu AK (s.alloc off (.cunion die.attrs.name [])).1 :=
                  cacheInv_alloc hInv off _ (by rw [hak]; rfl)
                    (notPassPtr_of_tag hg (by rw [hteq]; decide))
                    (notPassCv_of_tag hg (by rw [hteq]; decide) (by rw [hteq]; decide))
                simp only [die_to_ctype, hg, hcl, hteq] at h
                obtain ⟨hF2, hI2, hok2⟩ :=
                  union_members_loop_spec ih s.store.length die.children _ s' res h hInv1
                refine ⟨stFrame_trans (stFrame_alloc_after (stFrame_rfl s) off _ hcl) hF2,
                  hI2, ?_, ?_⟩
                · intro r hr
                  have hrid := hok2 r hr
                  subst hrid
                  rw [isArrayRef_node]
                  have hlt : s.store.length
                      < (s.alloc off (.cunion die.attrs.name [])).1.store.length := by
                    rw [storeLength_alloc]
                    exact Nat.lt_succ_self _
                  rw [hF2.2.2.1 s.store.length hlt, isArrayAt_alloc, if_pos rfl, hak]
                  rfl
                · intro m _
                  exact hak
              · by_cases t5 : (die.tag == "DW_TAG_enumeration_type") = true
                · -- DW_TAG_enumeration_type
                  have hteq : die.tag = "DW_TAG_enumeration_type" := eq_of_beq t5
                  have hak : AK off = false := by
                    rw [hAK off die hg, hteq]
                    rfl
                  have hInv1 : CacheInv cu AK (s.alloc off (.cenum die.attrs.name [])).1 :=
                    cacheInv_alloc hInv off _ (by rw [hak]; rfl)
                      (notPassPtr_of_tag hg (by rw [hteq]; decide))
                      (notPassCv_of_tag hg (by rw [hteq]; decide) (by rw [hteq]; decide))
                  simp only [die_to_ctype, hg, hcl, hteq] at h
                  obtain ⟨hF2, hI2, hok2⟩ :=
                    enum_members_loop_spec s.store.length die.children _ s' res h hInv1
                  refine ⟨stFrame_trans (stFrame_alloc_after (stFrame_rfl s) off _ hcl) hF2,
                    hI2, ?_, ?_⟩
                  · intro r hr
                    have hrid := hok2 r hr
                    subst hrid
                    rw [isArrayRef_node]
                    have hlt : s.store.length
                        < (s.alloc off (.cenum die.attrs.name [])).1.store.length := by
                      rw [storeLength_alloc]
                      exact Nat.lt_succ_self _
                    rw [hF2.2.2.1 s.store.length hlt, isArrayAt_alloc, if_pos rfl, hak]
                    rfl
                  · intro m _
                    exact hak
                · by_cases t6 : (die.tag == "DW_TAG_const_type"
                      || die.tag == "DW_TAG_volatile_type") = true
                  · -- DW_TAG_const_type / DW_TAG_volatile_type
                    have htc : die.tag = "DW_TAG_const_type"
                        ∨ die.tag = "DW_TAG_volatile_type" := by
                      have h6 := t6
                      simp only [Bool.or_eq_true, beq_iff_eq] at h6
                      exact h6
                    cases hat : die_get_at_type (die_to_ctype n cu) die s with
                    | mk s1 res1 =>
                      obtain ⟨hF1, hI1, hok1, hnk1⟩ :=
                        die_get_at_type_spec ih die s s1 res1 hat hInv
                      rcases htc with hc | hc
                      all_goals
                        cases res1 with
                        | error e =>
                          simp only [die_to_ctype, hg, hcl, hc, hat] at h
                          cases h
                          refine ⟨hF1, hI1, ?_, ?_⟩
                          · intro r hr
                            cases hr
                          · intro m hm
                            exact absurd hm (hnk1 m)
                        | ok of =>
                          have P := hok1 of rfl
                          by_cases harr : s1.isArrayRef of = true
                          · simp only [die_to_ctype, hg, hcl, hc, hat, harr, if_true] at h
                            cases h
                            cases htr : die.attrs.typeRef with
                            | none =>
                              rw [htr] at P
                              rw [P] at harr
                              cases harr
                            | some rr =>
                              have hakcv : AK off = AK rr := by
                                rw [hAK off die hg, hc, htr]
                                rfl
                              refine ⟨hF1, hI1, ?_, ?_⟩
                              · intro r hr
                                injection hr with hr
                                subst hr
                                rw [htr] at P
                                rw [hakcv]
                                exact P
                              · intro m hm
                                cases hm
                          · have harr' : s1.isArrayRef of = false := by
                              cases hx : s1.isArrayRef of
                              · rfl
                              · exact absurd hx harr
                            have hak0 : AK off = false := by
                              cases htr : die.attrs.typeRef with
                              | none =>
                                rw [hAK off die hg, hc, htr]
                                rfl
                              | some rr =>
                                have hakcv : AK off = AK rr := by
                                  rw [hAK off die hg, hc, htr]
                                  rfl
                                have P2 : s1.isArrayRef of = AK rr := by
                                  rw [htr] at P
                                  exact P
                                rw [hakcv, ← P2]
                                exact harr'
                            have hpcv : ¬ PassCv cu AK off := by
                              rintro ⟨d, rr, hgd, -, htrd, hakrr⟩
                              rw [hg] at hgd
                              injection hgd with hgd
                              subst hgd
                              have P2 : s1.isArrayRef of = AK rr := by
                                rw [htrd] at P
                                exact P
                              rw [hakrr] at P2
                              rw [P2] at harr'
                              cases harr'
                            simp only [die_to_ctype, hg, hcl, hc, hat, harr',
                              Bool.false_eq_true, if_false, allocRes] at h
                            cases h
                            refine ⟨stFrame_alloc_after hF1 off _ hcl,
                              cacheInv_alloc hI1 off _ (by rw [hak0]; rfl)
                                (notPassPtr_of_tag hg (by rw [hc]; decide)) hpcv, ?_, ?_⟩
                            · intro r hr
                              injection hr with hr
                              subst hr
                              rw [allocRes_arr, hak0]
                              rfl
                            · intro m hm
                              cases hm
                  · by_cases t7 : (die.tag == "DW_TAG_subroutine_type") = true
                    · -- DW_TAG_subroutine_type
                      have hteq : die.tag = "DW_TAG_subroutine_type" := eq_of_beq t7
                      have hak : AK off = false := by
                        rw [hAK off die hg, hteq]
                        rfl
                      cases hfa : die_to_funclike_args (die_to_ctype n cu) cu die s with
                      | mk s1 res1 =>
                        obtain ⟨hF1, hI1⟩ := die_to_funclike_args_spec ih die s s1 res1 hfa hInv
                        cases res1 with
                        | error e =>
                          simp only [die_to_ctype, hg, hcl, hteq, hfa] at h
                          cases h
                          refine ⟨hF1, hI1, ?_, ?_⟩
                          · intro r hr
                            cases hr
                          · intro m _
                            exact hak
                        | ok pair =>
                          obtain ⟨ret, args⟩ := pair
                          simp only [die_to_ctype, hg, hcl, hteq, hfa, allocRes] at h
                          cases h
                          refine ⟨stFrame_alloc_after hF1 off _ hcl,
                            cacheInv_alloc hI1 off _ (by rw [hak]; rfl)
                              (notPassPtr_of_tag hg (by rw [hteq]; decide))
                              (notPassCv_of_tag hg (by rw [hteq]; decide)
                                (by rw [hteq]; decide)),
                            ?_, ?_⟩
                          · intro r hr
                            injection hr with hr
                            subst hr
                            rw [allocRes_arr, hak]
                            rfl
                          · intro m hm
                            cases hm
                    · by_cases t8 : (die.tag == "DW_TAG_base_type") = true
                      · -- DW_TAG_base_type
                        have hteq : die.tag = "DW_TAG_base_type" := eq_of_beq t8
                        have hak : AK off = false := by
                          rw [hAK off die hg, hteq]
                          rfl
                        cases hnm : die.attrs.name with
                        | none =>
                          simp only [die_to_ctype, hg, hcl, hteq, hnm] at h
                          cases h
                          refine ⟨stFrame_rfl s, hInv, ?_, ?_⟩
                          · intro r hr
                            cases hr
                          · intro m _
                            exact hak
                        | some nm =>
                          simp only [die_to_ctype, hg, hcl, hteq, hnm, allocRes] at h
                          cases h
                          refine ⟨stFrame_alloc_after (stFrame_rfl s) off _ hcl,
                            cacheInv_alloc hInv off _ (by rw [hak]; rfl)
                              (notPassPtr_of_tag hg (by rw [hteq]; decide))
                              (notPassCv_of_tag hg (by rw [hteq]; decide)
                                (by rw [hteq]; decide)),
                            ?_, ?_⟩
                          · intro r hr
                            injection hr with hr
                            subst hr
                            rw [allocRes_arr, hak]
                            rfl
                          · intro m hm
                            cases hm
                      · by_cases t9 : (die.tag == "DW_TAG_typedef") = true
                        · -- DW_TAG_typedef
                          have hteq : die.tag = "DW_TAG_typedef" := eq_of_beq t9
                          have hak : AK off = false := by
                            rw [hAK off die hg, hteq]
                            rfl
                          cases hnm : die.attrs.name with
                          | none =>
                            simp only [die_to_ctype, hg, hcl, hteq, hnm] at h
                            cases h
                            refine ⟨stFrame_rfl s, hInv, ?_, ?_⟩
                            · intro r hr
                              cases hr
                            · intro m _
                              exact hak
                          | some nm =>
                            cases hat : die_get_at_type (die_to_ctype n cu) die s with
                            | mk s1 res1 =>
                              obtain ⟨hF1, hI1, hok1, hnk1⟩ :=
                                die_get_at_type_spec ih die s s1 res1 hat hInv
                              cases res1 with
                              | error e =>
                                simp only [die_to_ctype, hg, hcl, hteq, hnm, hat] at h
                                cases h
                                refine ⟨hF1, hI1, ?_, ?_⟩
                                · intro r hr
                                  cases hr
                                · intro m _
                                  exact hak
                              | ok of =>
                                simp only [die_to_ctype, hg, hcl, hteq, hnm, hat,
                                  allocRes] at h
                                cases h
                                refine ⟨stFrame_alloc_after hF1 off _ hcl,
                                  cacheInv_alloc hI1 off _ (by rw [hak]; rfl)
                                    (notPassPtr_of_tag hg (by rw [hteq]; decide))
                                    (notPassCv_of_tag hg (by rw [hteq]; decide)
                                      (by rw [hteq]; decide)),
                                  ?_, ?_⟩
                                · intro r hr
                                  injection hr with hr
                                  subst hr
                                  rw [allocRes_arr, hak]
                                  rfl
                                · intro m hm
                                  cases hm
                        · -- unsupported kind
                          simp only [die_to_ctype, hg, hcl, t1, t2, t3, t4, t5, t6, t7, t8, t9,
                            Bool.false_eq_true, if_false] at h
                          cases h
                          refine ⟨stFrame_rfl s, hInv, ?_, ?_⟩
                          · intro r hr
                            cases hr
                          · intro m hm
                            simp at hm

/-- Replay stability: if a reconstruction succeeds without silently
recovering from a `KeyError` (ghost catch counter unchanged), then
re-running the reconstruction of the same offset from its own final state
returns the very same reference and leaves the state untouched. -/
theorem die_to_ctype_replay {cu : CU} {AK : Nat → Bool} (hAK : AKCoherent cu AK) :
    ∀ fuel off s s' r, die_to_ctype fuel cu off s = (s', .ok r) →
      CacheInv cu AK s → s'.caught = s.caught →
      die_to_ctype fuel cu off s' = (s', .ok r) := by
  intro fuel
  induction fuel with
  | zero =>
    intro off s s' r h hInv hclean
    injection h with h1 h2
    cases h2
  | succ n ih =>
    intro off s s' r h hInv hclean
    cases hg : cu.getDIE off with
    | none =>
      simp only [die_to_ctype, hg] at h
      injection h with h1 h2
      cases h2
    | some die =>
      cases hcl : s.cacheLookup off with
      | some id =>
        simp only [die_to_ctype, hg, hcl] at h
        cases h
        simp only [die_to_ctype, hg, hcl]
      | none =>
        by_cases t1 : (die.tag == "DW_TAG_pointer_type") = true
        · -- DW_TAG_pointer_type
          have hteq : die.tag = "DW_TAG_pointer_type" := eq_of_beq t1
          cases htr : die.attrs.typeRef with
          | none =>
            simp only [die_to_ctype, hg, hcl, hteq, die_get_at_type, htr, allocRes] at h
            cases h
            have hcl' : ((s.alloc off (.pointer .void)).1).cacheLookup off
                = some s.store.length := by
              rw [cacheLookup_alloc, if_pos rfl]
            simp only [die_to_ctype, hg, hcl']
            rfl
          | some rr =>
            cases hrun : die_to_ctype n cu rr s with
            | mk s2 res2 =>
              obtain ⟨hF2, hI2, hok2, hnk2⟩ :=
                evalSpec_die_to_ctype hAK n rr s s2 res2 hrun hInv
              cases res2 with
              | error e =>
                cases e with
                | keyError m =>
                  -- the silently-recovered case is excluded by hclean
                  simp only [die_to_ctype, hg, hcl, hteq, die_get_at_type, htr, hrun] at h
                  cases hgr : cu.getDIE rr with
                  | none =>
                    simp only [hgr] at h
                    injection h with h1 h2
                    cases h2
                  | some ofDie =>
                    simp only [hgr] at h
                    by_cases hsub : (ofDie.tag == "DW_TAG_subroutine_type") = true
                    · simp only [hsub, if_true] at h
                      cases h
                      have hcc : s2.caught + 1 = s.caught := hclean
                      have hle : s.caught ≤ s2.caught := hF2.1
                      exact absurd hcc (by omega)
                    · have hsub' : (ofDie.tag == "DW_TAG_subroutine_type") = false := by
                        cases hx : (ofDie.tag == "DW_TAG_subroutine_type")
                        · rfl
                        · exact absurd hx hsub
                      simp only [hsub', Bool.false_eq_true, if_false, allocRes] at h
                      cases h
                      have hcc : s2.caught + 1 = s.caught := hclean
                      have hle : s.caught ≤ s2.caught := hF2.1
                      exact absurd hcc (by omega)
                | typeError m =>
                  simp only [die_to_ctype, hg, hcl, hteq, die_get_at_type, htr, hrun] at h
                  injection h with h1 h2
                  cases h2
                | valueError m =>
                  simp only [die_to_ctype, hg, hcl, hteq, die_get_at_type, htr, hrun] at h
                  injection h with h1 h2
                  cases h2
                | missingDie =>
                  simp only [die_to_ctype, hg, hcl, hteq, die_get_at_type, htr, hrun] at h
                  injection h with h1 h2
                  cases h2
                | fuel =>
                  simp only [die_to_ctype, hg, hcl, hteq, die_get_at_type, htr, hrun] at h
                  injection h with h1 h2
                  cases h2
              | ok of =>
                cases hgr : cu.getDIE rr with
                | none =>
                  simp only [die_to_ctype, hg, hcl, hteq, die_get_at_type, htr, hrun, hgr] at h
                  injection h with h1 h2
                  cases h2
                | some ofDie =>
                  by_cases hsub : (ofDie.tag == "DW_TAG_subroutine_type") = true
                  · have hsteq : ofDie.tag = "DW_TAG_subroutine_type" := eq_of_beq hsub
                    simp only [die_to_ctype, hg, hcl, hteq, die_get_at_type, htr, hrun, hgr,
                      hsteq] at h
                    cases h
                    have hpass : PassPtr cu off := ⟨die, rr, ofDie, hg, hteq, htr, hgr, hsteq⟩
                    have hcl' : s'.cacheLookup off = none := hI2.2.1 off hpass
                    have hrep := ih rr s s' r hrun hInv hclean
                    simp only [die_to_ctype, hg, hcl', hteq, die_get_at_type, htr, hrep,
                      hgr, hsteq]
                    rfl
                  · have hsub' : (ofDie.tag == "DW_TAG_subroutine_type") = false := by
                      cases hx : (ofDie.tag == "DW_TAG_subroutine_type")
                      · rfl
                      · exact absurd hx hsub
                    simp only [die_to_ctype, hg, hcl, hteq, die_get_at_type, htr, hrun, hgr,
                      hsub', Bool.false_eq_true, if_false, allocRes] at h
                    cases h
                    have hcl' : ((s2.alloc off (.pointer of)).1).cacheLookup off
                        = some s2.store.length := by
                      rw [cacheLookup_alloc, if_pos rfl]
                    simp only [die_to_ctype, hg, hcl']
                    rfl
        · by_cases t2 : (die.tag == "DW_TAG_array_type") = true
          · -- DW_TAG_array_type
            have hteq : die.tag = "DW_TAG_array_type" := eq_of_beq t2
            cases hat : die_get_at_type (die_to_ctype n cu) die s with
            | mk s1 res1 =>
              cases res1 with
              | error e =>
                simp only [die_to_ctype, hg, hcl, hteq, hat] at h
                injection h with h1 h2
                cases h2
              | ok of =>
                simp only [die_to_ctype, hg, hcl, hteq, hat, allocRes] at h
                cases h
                have hcl' : ((s1.alloc off (.array of (array_length_of cu die.children))).1).cacheLookup off
                    = some s1.store.length := by
                  rw [cacheLookup_alloc, if_pos rfl]
                simp only [die_to_ctype, hg, hcl']
                rfl
          · by_cases t3 : (die.tag == "DW_TAG_structure_type") = true
            · -- DW_TAG_structure_type
              have hteq : die.tag = "DW_TAG_structure_type" := eq_of_beq t3
              have hak : AK off = false := by
                rw [hAK off die hg, hteq]
                rfl
              have hInv1 : CacheInv cu AK (s.alloc off (.cstruct die.attrs.name [] [])).1 :=
                cacheInv_alloc hInv off _ (by rw [hak]; rfl)
                  (notPassPtr_of_tag hg (by rw [hteq]; decide))
                  (notPassCv_of_tag hg (by rw [hteq]; decide) (by rw [hteq]; decide))
              simp only [die_to_ctype, hg, hcl, hteq] at h
              obtain ⟨hF2, hI2, hok2⟩ :=
                struct_members_loop_spec (evalSpec_die_to_ctype hAK n) s.store.length
                  die.children _ s' (.ok r) h hInv1
              have hrid := hok2 r rfl
              subst hrid
              have hbase : ((s.alloc off (.cstruct die.attrs.name [] [])).1).cacheLookup off
                  = some s.store.length := by
                rw [cacheLookup_alloc, if_pos rfl]
              have hcl' : s'.cacheLookup off = some s.store.length :=
                hF2.2.2.2 off s.store.length hbase
              simp only [die_to_ctype, hg, hcl']
            · by_cases t4 : (die.tag == "DW_TAG_union_type") = true
              · -- DW_TAG_union_type
                have hteq : die.tag = "DW_TAG_union_type" := eq_of_beq t4
                have hak : AK off = false := by
                  rw [hAK off die hg, hteq]
                  rfl
                have hInv1 : CacheInv cu AK (s.alloc off (.cunion die.attrs.name [])).1 :=
                  cacheInv_alloc hInv off _ (by rw [hak]; rfl)
                    (notPassPtr_of_tag hg (by rw [hteq]; decide))
                    (notPassCv_of_tag hg (by rw [hteq]; decide) (by rw [hteq]; decide))
                simp only [die_to_ctype, hg, hcl, hteq] at h
                obtain ⟨hF2, hI2, hok2⟩ :=
                  union_members_loop_spec (evalSpec_die_to_ctype hAK n) s.store.length
                    die.children _ s' (.ok r) h hInv1
                have hrid := hok2 r rfl
                subst hrid
                have hbase : ((s.alloc off (.cunion die.attrs.name [])).1).cacheLookup off
                    = some s.store.length := by
                  rw [cacheLookup_alloc, if_pos rfl]
                have hcl' : s'.cacheLookup off = some s.store.length :=
                  hF2.2.2.2 off s.store.length hbase
                simp only [die_to_ctype, hg, hcl']
              · by_cases t5 : (die.tag == "DW_TAG_enumeration_type") = true
                · -- DW_TAG_enumeration_type
                  have hteq : die.tag = "DW_TAG_enumeration_type" := eq_of_beq t5
                  have hak : AK off = false := by
                    rw [hAK off die hg, hteq]
                    rfl
                  have hInv1 : CacheInv cu AK (s.alloc off (.cenum die.attrs.name [])).1 :=
                    cacheInv_alloc hInv off _ (by rw [hak]; rfl)
                      (notPassPtr_of_tag hg (by rw [hteq]; decide))
                      (notPassCv_of_tag hg (by rw [hteq]; decide) (by rw [hteq]; decide))
                  simp only [die_to_ctype, hg, hcl, hteq] at h
                  obtain ⟨hF2, hI2, hok2⟩ :=
                    enum_members_loop_spec s.store.length die.children _ s' (.ok r) h hInv1
                  have hrid := hok2 r rfl
                  subst hrid
                  have hbase : ((s.alloc off (.cenum die.attrs.name [])).1).cacheLookup off
                      = some s.store.length := by
                    rw [cacheLookup_alloc, if_pos rfl]
                  have hcl' : s'.cacheLookup off = some s.store.length :=
                    hF2.2.2.2 off s.store.length hbase
                  simp only [die_to_ctype, hg, hcl']
                · by_cases t6 : (die.tag == "DW_TAG_const_type"
                      || die.tag == "DW_TAG_volatile_type") = true
                  · -- DW_TAG_const_type / DW_TAG_volatile_type
                    have htc : die.tag = "DW_TAG_const_type"
                        ∨ die.tag = "DW_TAG_volatile_type" := by
                      have h6 := t6
                      simp only [Bool.or_eq_true, beq_iff_eq] at h6
                      exact h6
                    cases htr : die.attrs.typeRef with
                    | none =>
                      -- inner resolves to CVoid, never an array: the entry is cached
                      rcases htc with hc | hc
                      all_goals
                        simp only [die_to_ctype, hg, hcl, hc, die_get_at_type, htr,
                          isArrayRef_void, Bool.false_eq_true, if_false, allocRes] at h
                      all_goals
                        cases h
                      · have hcl' : ((s.alloc off (.cconst .void)).1).cacheLookup off
                            = some s.store.length := by
                          rw [cacheLookup_alloc, if_pos rfl]
                        simp only [die_to_ctype, hg, hcl']
                        rfl
                      · have hcl' : ((s.alloc off (.cvolatile .void)).1).cacheLookup off
                            = some s.store.length := by
                          rw [cacheLookup_alloc, if_pos rfl]
                        simp only [die_to_ctype, hg, hcl']
                        rfl
                    | some rr =>
                      cases hrun : die_to_ctype n cu rr s with
                      | mk s2 res2 =>
                        obtain ⟨hF2, hI2, hok2, hnk2⟩ :=
                          evalSpec_die_to_ctype hAK n rr s s2 res2 hrun hInv
                        cases res2 with
                        | error e =>
                          cases e with
                          | keyError m =>
                            -- caught: CVoid is not an array, so the entry is cached
                            rcases htc with hc | hc
                            all_goals
                              simp only [die_to_ctype, hg, hcl, hc, die_get_at_type, htr,
                                hrun, isArrayRef_void, Bool.false_eq_true, if_false,
                                allocRes] at h
                            all_goals
                              cases h
                            · have hcl' :
                                  (({ s2 with caught := s2.caught + 1 }.alloc off
                                    (.cconst .void)).1).cacheLookup off
                                  = some s2.store.length := by
                                rw [cacheLookup_alloc, if_pos rfl]
                              simp only [die_to_ctype, hg, hcl']
                              rfl
                            · have hcl' :
                                  (({ s2 with caught := s2.caught + 1 }.alloc off
                                    (.cvolatile .void)).1).cacheLookup off
                                  = some s2.store.length := by
                                rw [cacheLookup_alloc, if_pos rfl]
                              simp only [die_to_ctype, hg, hcl']
                              rfl
                          | typeError m =>
                            rcases htc with hc | hc
                            all_goals
                              simp only [die_to_ctype, hg, hcl, hc, die_get_at_type, htr,
                                hrun] at h
                            all_goals
                              injection h with h1 h2
                            all_goals
                              cases h2
                          | valueError m =>
                            rcases htc with hc | hc
                            all_goals
                              simp only [die_to_ctype, hg, hcl, hc, die_get_at_type, htr,
                                hrun] at h
                            all_goals
                              injection h with h1 h2
                            all_goals
                              cases h2
                          | missingDie =>
                            rcases htc with hc | hc
                            all_goals
                              simp only [die_to_ctype, hg, hcl, hc, die_get_at_type, htr,
                                hrun] at h
                            all_goals
                              injection h with h1 h2
                            all_goals
                              cases h2
                          | fuel =>
                            rcases htc with hc | hc
                            all_goals
                              simp only [die_to_ctype, hg, hcl, hc, die_get_at_type, htr,
                                hrun] at h
                            all_goals
                              injection h with h1 h2
                            all_goals
                              cases h2
                        | ok of =>
                          by_cases harr : s2.isArrayRef of = true
                          · -- pass-through: the array is returned uncached
                            have hakrr : AK rr = true := by
                              rw [← hok2 of rfl]
                              exact harr
                            have hpass : PassCv cu AK off := ⟨die, rr, hg, htc, htr, hakrr⟩
                            rcases htc with hc | hc
                            all_goals
                              simp only [die_to_ctype, hg, hcl, hc, die_get_at_type, htr,
                                hrun, harr, if_true] at h
                            all_goals
                              cases h
                            all_goals
                              have hcl' : s'.cacheLookup off = none := hI2.2.2 off hpass
                            all_goals
                              have hrep := ih rr s s' r hrun hInv hclean
                            · simp only [die_to_ctype, hg, hcl', hc, die_get_at_type, htr,
                                hrep, harr, if_true]
                              rfl
                            · simp only [die_to_ctype, hg, hcl', hc, die_get_at_type, htr,
                                hrep, harr, if_true]
                              rfl
                          · have harr' : s2.isArrayRef of = false := by
                              cases hx : s2.isArrayRef of
                              · rfl
                              · exact absurd hx harr
                            rcases htc with hc | hc
                            all_goals
                              simp only [die_to_ctype, hg, hcl, hc, die_get_at_type, htr,
                                hrun, harr', Bool.false_eq_true, if_false, allocRes] at h
                            all_goals
                              cases h
                            · have hcl' : ((s2.alloc off (.cconst of)).1).cacheLookup off
                                  = some s2.store.length := by
                                rw [cacheLookup_alloc, if_pos rfl]
                              simp only [die_to_ctype, hg, hcl']
                              rfl
                            · have hcl' : ((s2.alloc off (.cvolatile of)).1).cacheLookup off
                                  = some s2.store.length := by
                                rw [cacheLookup_alloc, if_pos rfl]
                              simp only [die_to_ctype, hg, hcl']
                              rfl
                  · by_cases t7 : (die.tag == "DW_TAG_subroutine_type") = true
                    · -- DW_TAG_subroutine_type
                      have hteq : die.tag = "DW_TAG_subroutine_type" := eq_of_beq t7
                      cases hfa : die_to_funclike_args (die_to_ctype n cu) cu die s with
                      | mk s1 res1 =>
                        cases res1 with
                        | error e =>
                          simp only [die_to_ctype, hg, hcl, hteq, hfa] at h
                          injection h with h1 h2
                          cases h2
                        | ok pair =>
                          obtain ⟨ret, args⟩ := pair
                          simp only [die_to_ctype, hg, hcl, hteq, hfa, allocRes] at h
                          cases h
                          have hcl' : ((s1.alloc off (.funcPtr ret args)).1).cacheLookup off
                              = some s1.store.length := by
                            rw [cacheLookup_alloc, if_pos rfl]
                          simp only [die_to_ctype, hg, hcl']
                          rfl
                    · by_cases t8 : (die.tag == "DW_TAG_base_type") = true
                      · -- DW_TAG_base_type
                        have hteq : die.tag = "DW_TAG_base_type" := eq_of_beq t8
                        cases hnm : die.attrs.name with
                        | none =>
                          simp only [die_to_ctype, hg, hcl, hteq, hnm] at h
                          injection h with h1 h2
                          cases h2
                        | some nm =>
                          simp only [die_to_ctype, hg, hcl, hteq, hnm, allocRes] at h
                          cases h
                          have hcl' : ((s.alloc off
                                (.primitive (if nm == "_Bool" then "bool" else nm))).1).cacheLookup off
                              = some s.store.length := by
                            rw [cacheLookup_alloc, if_pos rfl]
                          simp only [die_to_ctype, hg, hcl']
                          rfl
                      · by_cases t9 : (die.tag == "DW_TAG_typedef") = true
                        · -- DW_TAG_typedef
                          have hteq : die.tag = "DW_TAG_typedef" := eq_of_beq t9
                          cases hnm : die.attrs.name with
                          | none =>
                            simp only [die_to_ctype, hg, hcl, hteq, hnm] at h
                            injection h with h1 h2
                            cases h2
                          | some nm =>
                            cases hat : die_get_at_type (die_to_ctype n cu) die s with
                            | mk s1 res1 =>
                              cases res1 with
                              | error e =>
                                simp only [die_to_ctype, hg, hcl, hteq, hnm, hat] at h
                                injection h with h1 h2
                                cases h2
                              | ok of =>
                                simp only [die_to_ctype, hg, hcl, hteq, hnm, hat,
                                  allocRes] at h
                                cases h
                                have hcl' : ((s1.alloc off (.typedefNode nm of)).1).cacheLookup off
                                    = some s1.store.length := by
                                  rw [cacheLookup_alloc, if_pos rfl]
                                simp only [die_to_ctype, hg, hcl']
                                rfl
                        · simp only [die_to_ctype, hg, hcl, t1, t2, t3, t4, t5, t6, t7, t8,
                            t9, Bool.false_eq_true, if_false] at h
                          injection h with h1 h2
                          cases h2

/-- The C3 counterexample unit: a pointer to a function signature whose
parameter's struct type has a member without `DW_AT_data_member_location`.
The first reconstruction caches the partially-built struct, the in-flight
`KeyError` is swallowed by `die_get_at_type`, and `CVoid` is returned; a
second reconstruction sails past the cached struct and returns the
function-pointer object instead. -/
def recovered_keyerror_cu : CU := ⟨[
  { offset := 1, tag := "DW_TAG_pointer_type", attrs := { typeRef := some 2 } },
  { offset := 2, tag := "DW_TAG_subroutine_type", children := [3] },
  { offset := 3, tag := "DW_TAG_formal_parameter", attrs := { typeRef := some 4 } },
  { offset := 4, tag := "DW_TAG_structure_type", attrs := { name := some "S" }, children := [5] },
  { offset := 5, tag := "DW_TAG_member", attrs := { name := some "m" } }]⟩

/-- C3 counterexample: both reconstructions of entry 1 return normally,
but the first returns `CVoid` and the second a different object — not the
identical cached instance. -/
theorem reconstruct_twice_differs_after_recovered_keyerror :
    (die_to_ctype 10 recovered_keyerror_cu 1 {}).2 = .ok .void
    ∧ (die_to_ctype 10 recovered_keyerror_cu 1
        (die_to_ctype 10 recovered_keyerror_cu 1 {}).1).2 = .ok (.node 1)
    ∧ (die_to_ctype 10 recovered_keyerror_cu 1
        (die_to_ctype 10 recovered_keyerror_cu 1 {}).1).2
      ≠ (die_to_ctype 10 recovered_keyerror_cu 1 {}).2 :=
  ⟨rfl, rfl, by
    intro hcontra
    have h1 : (Except.ok (CRef.node 1) : Except Err CRef) = .ok .void := hcontra
    injection h1 with h1
    cases h1⟩

/-- C3 (amended): whenever a reconstruction succeeds without silently
recovering from an attribute-lookup `KeyError` (the ghost catch counter is
unchanged), reconstructing the same (unit, offset) again from the
resulting state returns the identical instance — the very same reference —
and leaves cache, arena and counter untouched.  The initial state must
satisfy the cache invariant, which the empty cache does and every
clean run preserves. -/
theorem reconstruct_same_offset_twice_identical_when_clean
    (cu : CU) (AK : Nat → Bool) (fuel off : Nat) (s s' : St) (r : CRef)
    (hAK : AKCoherent cu AK) (hInv : CacheInv cu AK s)
    (hrun : die_to_ctype fuel cu off s = (s', .ok r))
    (hclean : s'.caught = s.caught) :
    die_to_ctype fuel cu off s' = (s', .ok r) :=
  die_to_ctype_replay hAK fuel off s s' r hrun hInv hclean

/-- A one-entry unit for the closed C3 instance. -/
def int_only_cu : CU :=
  ⟨[{ offset := 1, tag := "DW_TAG_base_type", attrs := { name := some "int" } }]⟩

/-- Closed instance of the amended C3: after the clean reconstruction of
the `int` entry, reconstructing it again returns the same arena object and
the same state. -/
theorem reconstruct_same_offset_twice_identical_when_clean_witness :
    die_to_ctype 3 int_only_cu 1
      { cache := [(1, 0)], store := [.primitive "int"], caught := 0 }
      = ({ cache := [(1, 0)], store := [.primitive "int"], caught := 0 }, .ok (.node 0)) :=
  reconstruct_same_offset_twice_identical_when_clean int_only_cu (fun _ => false) 3 1 {}
    { cache := [(1, 0)], store := [.primitive "int"], caught := 0 } (.node 0)
    (by
      intro off d hd
      by_cases hoff : off = 1
      · subst hoff
        rw [show int_only_cu.getDIE 1
            = some (⟨1, "DW_TAG_base_type", { name := some "int" }, []⟩ : DIE) from rfl] at hd
        injection hd with hd
        subst hd
        rfl
      · have hb : ((1 : Nat) == off) = false :=
          beq_eq_false_iff_ne.mpr (fun hh => hoff hh.symm)
        have h0 : int_only_cu.getDIE off = none := by
          simp [CU.getDIE, List.find?, hb]
        rw [h0] at hd
        cases hd)
    (cacheInv_empty int_only_cu (fun _ => false)) rfl rfl
